import Mathlib

/-!
# Status LED of the carpo board

A shallow embedding of config/boards/arm/carpo/carpo_status_led.c: the breathing
ramp driven by a periodic timer, the blocking blink sequence, and the two event
listeners (central and peripheral build) that choose between them.

The C module keeps one global animation state and talks to three Zephyr services:
the PWM driver, the kernel timer and the blocking sleep.  Here the global state, the
status of the timer and the chronological list of service calls are the fields of
World; every C function becomes a function on World.  The return code of each
PWM write is read from an oracle pwm_ret, indexed by the number of writes issued
so far, so that every pattern of failing writes can be expressed.
-/

namespace CarpoStatusLed

/-! ## Constants and machine arithmetic -/

/-- STEPS: the number of ramp steps of one rise (the C constant 100U). -/
def STEPS : Nat := 100

/-- SLEEP_DELTA: the tick interval of the breathing timer in ms (the C constant 20U). -/
def SLEEP_DELTA : Nat := 20

/-- Addition of two uint32_t values: wraps modulo 2^32. -/
def u32_add (a b : Nat) : Nat := (a + b) % 2 ^ 32

/-- Subtraction of two uint32_t values: wraps modulo 2^32. -/
def u32_sub (a b : Nat) : Nat := (a + 2 ^ 32 - b % 2 ^ 32) % 2 ^ 32

/-! ## Data model -/

/-- The part of struct pwm_dt_spec the module reads: the fixed PWM period (uint32_t). -/
structure pwm_dt_spec where
  period : Nat
deriving DecidableEq, Repr

/-- The animation state, struct pwm_led_state_t; the three numbers are uint32_t. -/
structure pwm_led_state_t where
  increasing : Bool
  steps_taken : Nat
  pulse_width : Nat
  pulse_width_delta : Nat
deriving DecidableEq, Repr

/-- One call of a Zephyr service, as recorded in the trace. -/
inductive Action where
  | pwm_set_pulse (pulse : Nat)
  | msleep (ms : Nat)
  | timer_start (duration period : Nat)
  | timer_stop
deriving DecidableEq, Repr

/-- The mutable world of the module: the global pwm_led_state, the status of
conn_status_timer (none when stopped, otherwise first delay and repeat interval in ms),
the chronological trace of service calls, and the number of PWM writes issued. -/
structure World where
  pwm_led_state : pwm_led_state_t
  conn_status_timer : Option (Nat × Nat)
  trace : List Action
  pwm_calls : Nat
deriving DecidableEq, Repr

/-- The static initialiser of the global pwm_led_state. -/
def pwm_led_state_init (pwm_led0 : pwm_dt_spec) : pwm_led_state_t :=
  { increasing := true
    steps_taken := 0
    pulse_width := 0
    pulse_width_delta := pwm_led0.period / STEPS }

/-- The world at boot: initial animation state, timer not started, nothing issued. -/
def boot (pwm_led0 : pwm_dt_spec) : World :=
  { pwm_led_state := pwm_led_state_init pwm_led0
    conn_status_timer := none
    trace := []
    pwm_calls := 0 }

/-! ## Zephyr services -/

/-- The service pwm_set_pulse_dt on pwm_led0: records the commanded pulse width and
returns the code the driver answers for this write (negative on failure). -/
def pwm_set_pulse_dt (pwm_ret : Nat → Int) (pulse : Nat) (w : World) : Int × World :=
  (pwm_ret w.pwm_calls,
   { w with trace := w.trace ++ [Action.pwm_set_pulse pulse], pwm_calls := w.pwm_calls + 1 })

/-- The service k_msleep: blocks the caller for ms milliseconds. -/
def k_msleep (ms : Nat) (w : World) : World :=
  { w with trace := w.trace ++ [Action.msleep ms] }

/-- The service k_timer_stop on conn_status_timer. -/
def k_timer_stop (w : World) : World :=
  { w with conn_status_timer := none, trace := w.trace ++ [Action.timer_stop] }

/-- The service k_timer_start on conn_status_timer, durations in ms: an already running
timer is rescheduled, so a single timer runs afterwards. -/
def k_timer_start (duration period : Nat) (w : World) : World :=
  { w with conn_status_timer := some (duration, period),
           trace := w.trace ++ [Action.timer_start duration period] }

/-! ## The breathing ramp -/

/-- The timer callback conn_status_timer_handler.  The return code of the write is
stored in a local that is never read. -/
def conn_status_timer_handler (pwm_ret : Nat → Int) (w : World) : World :=
  let s := w.pwm_led_state
  if s.increasing then
    if s.steps_taken < STEPS then
      let w1 := (pwm_set_pulse_dt pwm_ret s.pulse_width w).2
      { w1 with pwm_led_state :=
          { s with steps_taken := u32_add s.steps_taken 1
                   pulse_width := u32_add s.pulse_width s.pulse_width_delta } }
    else
      { w with pwm_led_state :=
          { s with increasing := false
                   steps_taken := u32_sub s.steps_taken 1
                   pulse_width := u32_sub s.pulse_width s.pulse_width_delta } }
  else
    if 0 < s.steps_taken then
      let w1 := (pwm_set_pulse_dt pwm_ret s.pulse_width w).2
      { w1 with pwm_led_state :=
          { s with steps_taken := u32_sub s.steps_taken 1
                   pulse_width := u32_sub s.pulse_width s.pulse_width_delta } }
    else
      { w with pwm_led_state :=
          { s with increasing := true
                   steps_taken := u32_add s.steps_taken 1
                   pulse_width := u32_add s.pulse_width s.pulse_width_delta } }

/-- The world after n consecutive runs of the timer callback. -/
def ticks (pwm_ret : Nat → Int) : Nat → World → World
  | 0, w => w
  | n + 1, w => conn_status_timer_handler pwm_ret (ticks pwm_ret n w)

/-! ## The blink sequence -/

/-- The for loop of blink with n iterations left (n is times - i in the C code; the
body does not read i).  A negative return code ends the function at once; the
LOG_DBG call before the return has no effect on the world. -/
def blink_loop (pwm_led0 : pwm_dt_spec) (pwm_ret : Nat → Int) (sleep_time_ms : Nat) :
    Nat → World → World
  | 0, w => w
  | n + 1, w =>
    let r1 := pwm_set_pulse_dt pwm_ret pwm_led0.period w
    if r1.1 < 0 then r1.2
    else
      let w2 := k_msleep sleep_time_ms r1.2
      let r2 := pwm_set_pulse_dt pwm_ret 0 w2
      if r2.1 < 0 then r2.2
      else blink_loop pwm_led0 pwm_ret sleep_time_ms n (k_msleep sleep_time_ms r2.2)

/-- The function blink(times, sleep_time_ms); both parameters are uint8_t, the
conversion to that type happens at the call site. -/
def blink (pwm_led0 : pwm_dt_spec) (pwm_ret : Nat → Int) (times sleep_time_ms : Nat)
    (w : World) : World :=
  blink_loop pwm_led0 pwm_ret sleep_time_ms times w

/-- The function reset_led: overwrites the animation state, then writes duty 0; a
failing write is only logged. -/
def reset_led (pwm_led0 : pwm_dt_spec) (pwm_ret : Nat → Int) (w : World) : World :=
  let w1 : World :=
    { w with pwm_led_state :=
        { increasing := true
          steps_taken := 0
          pulse_width := 0
          pulse_width_delta := pwm_led0.period / STEPS } }
  (pwm_set_pulse_dt pwm_ret 0 w1).2

/-! ## Events and the ZMK state read by the central listener -/

/-- The enum zmk_transport; the last constructor stands for any enumerator that the
switch of ble_event_listener does not name. -/
inductive zmk_transport where
  | ZMK_TRANSPORT_USB
  | ZMK_TRANSPORT_BLE
  | unlisted
deriving DecidableEq, Repr

/-- The part of struct zmk_endpoint_instance the module reads. -/
structure zmk_endpoint_instance where
  transport : zmk_transport
deriving DecidableEq, Repr

/-- The snapshot struct output_status_data; active_profile_index is uint8_t. -/
structure output_status_data where
  selected_endpoint : zmk_endpoint_instance
  active_profile_connected : Bool
  active_profile_bonded : Bool
  active_profile_index : Nat
deriving DecidableEq, Repr

/-- What the four ZMK queries of get_state answer at the time of the event. -/
structure zmk_queries where
  zmk_endpoints_selected : zmk_endpoint_instance
  zmk_ble_active_profile_is_connected : Bool
  zmk_ble_active_profile_is_open : Bool
  zmk_ble_active_profile_index : Int
deriving DecidableEq, Repr

/-- The function get_state: the index is stored in a uint8_t field. -/
def get_state (z : zmk_queries) : output_status_data :=
  { selected_endpoint := z.zmk_endpoints_selected
    active_profile_connected := z.zmk_ble_active_profile_is_connected
    active_profile_bonded := !z.zmk_ble_active_profile_is_open
    active_profile_index := (z.zmk_ble_active_profile_index % 256).toNat }

/-- The payload struct zmk_split_peripheral_status_changed. -/
structure zmk_split_peripheral_status_changed where
  connected : Bool
deriving DecidableEq, Repr

/-- The events the two listeners subscribe to, with the payload the module could read. -/
inductive zmk_event_t where
  | ble_active_profile_changed (index : Nat)
  | endpoint_changed (endpoint : zmk_endpoint_instance)
  | split_peripheral_status_changed (ev : zmk_split_peripheral_status_changed)
deriving DecidableEq, Repr

/-- The cast as_zmk_endpoint_changed: NULL (none) for any other kind of event. -/
def as_zmk_endpoint_changed : zmk_event_t → Option zmk_endpoint_instance
  | zmk_event_t.endpoint_changed e => some e
  | _ => none

/-- The cast as_zmk_split_peripheral_status_changed: NULL (none) for any other kind. -/
def as_zmk_split_peripheral_status_changed :
    zmk_event_t → Option zmk_split_peripheral_status_changed
  | zmk_event_t.split_peripheral_status_changed ev => some ev
  | _ => none

/-! ## The listeners -/

/-- The central listener ble_event_listener.  The blink count is the int value
active_profile_index + 1 converted to the uint8_t parameter of blink. -/
def ble_event_listener (pwm_led0 : pwm_dt_spec) (pwm_ret : Nat → Int) (z : zmk_queries)
    (eh : zmk_event_t) (w : World) : Int × World :=
  let state := get_state z
  match state.selected_endpoint.transport with
  | zmk_transport.ZMK_TRANSPORT_BLE =>
    if state.active_profile_connected then
      let w1 := k_timer_stop w
      let w2 := reset_led pwm_led0 pwm_ret w1
      match as_zmk_endpoint_changed eh with
      | none => (0, blink pwm_led0 pwm_ret ((state.active_profile_index + 1) % 256) 125 w2)
      | some _ => (0, w2)
    else
      (0, k_timer_start SLEEP_DELTA SLEEP_DELTA w)
  | zmk_transport.ZMK_TRANSPORT_USB =>
    (0, reset_led pwm_led0 pwm_ret (k_timer_stop w))
  | zmk_transport.unlisted => (0, w)

/-- The peripheral listener peripheral_event_listener.  The C code dereferences the
result of the cast without a check, so an event of another kind has no defined
outcome (none). -/
def peripheral_event_listener (pwm_led0 : pwm_dt_spec) (pwm_ret : Nat → Int)
    (eh : zmk_event_t) (w : World) : Option (Int × World) :=
  match as_zmk_split_peripheral_status_changed eh with
  | none => none
  | some ev =>
    if ev.connected then
      some (0, blink pwm_led0 pwm_ret 3 125 (reset_led pwm_led0 pwm_ret (k_timer_stop w)))
    else
      some (0, k_timer_start SLEEP_DELTA SLEEP_DELTA w)

/-! ## Observations on traces -/

/-- The duty values commanded in a trace, in order. -/
def duty_commands : List Action → List Nat
  | [] => []
  | Action.pwm_set_pulse p :: t => p :: duty_commands t
  | _ :: t => duty_commands t

/-- The total time the caller is blocked in a trace, in ms. -/
def blocking_time : List Action → Nat
  | [] => 0
  | Action.msleep ms :: t => ms + blocking_time t
  | _ :: t => blocking_time t

/-- The number of timer starts in a trace. -/
def timer_starts : List Action → Nat
  | [] => 0
  | Action.timer_start _ _ :: t => 1 + timer_starts t
  | _ :: t => timer_starts t

/-- The trace the specification gives for blink(count, d): the four calls
set(period), sleep(d), set(0), sleep(d), repeated count times. -/
def spec_blink_trace (period d : Nat) : Nat → List Action
  | 0 => []
  | count + 1 =>
    Action.pwm_set_pulse period :: Action.msleep d :: Action.pwm_set_pulse 0 :: Action.msleep d
      :: spec_blink_trace period d count

/-- The duty values the specification gives for the rising half of the triangle wave:
0, d, ..., (STEPS-1)*d. -/
def spec_rise (d : Nat) : List Nat :=
  (List.range STEPS).map (fun i => i * d)

/-- The duty values the specification gives for the falling half, as far as the first
2*STEPS ticks reach: (STEPS-1)*d, ..., d. -/
def spec_fall (d : Nat) : List Nat :=
  (List.range (STEPS - 1)).map (fun i => (STEPS - 1 - i) * d)

/-- The duty values the specification gives for blink(count, d): period, 0 repeated
count times. -/
def spec_blink_duties (period : Nat) (count : Nat) : List Nat :=
  (List.replicate count [period, 0]).flatten

/-- The k-th value (k from 1) of the alternating sequence period, 0, period, 0, ... -/
def spec_blink_duty (period k : Nat) : Nat :=
  if k % 2 = 1 then period else 0

/-! ## Start-up, and runs of the module -/

/-- The function led_init, run once at start-up through SYS_INIT: it answers the error
-ENOTSUP when the PWM device is not ready and 1 otherwise, and stores nothing.  The
errno constant ENOTSUP comes from the C library and is a parameter here; the LOG_ERR
call has no effect on the world. -/
def led_init (ENOTSUP : Int) (pwm_is_ready : Bool) : Int :=
  if !pwm_is_ready then -ENOTSUP else 1

/-- The two operations that write the animation state. -/
inductive led_op where
  | tick
  | reset
deriving DecidableEq, Repr

/-- One operation on the animation state: a run of the timer callback or a call of
reset_led. -/
def led_step (pwm_led0 : pwm_dt_spec) (pwm_ret : Nat → Int) : led_op → World → World
  | led_op.tick, w => conn_status_timer_handler pwm_ret w
  | led_op.reset, w => reset_led pwm_led0 pwm_ret w

/-- A sequence of ticks and resets, first operation first. -/
def led_run (pwm_led0 : pwm_dt_spec) (pwm_ret : Nat → Int) : List led_op → World → World
  | [], w => w
  | o :: ops, w => led_run pwm_led0 pwm_ret ops (led_step pwm_led0 pwm_ret o w)

/-- What can happen to the module after boot: an event delivered to the central
listener (with the answers of the ZMK queries at that time), an event delivered to the
peripheral listener, or an expiry of the timer. -/
inductive sys_event where
  | central (z : zmk_queries) (eh : zmk_event_t)
  | peripheral (eh : zmk_event_t)
  | timer_expiry
deriving DecidableEq, Repr

/-- One step of the module.  The timer callback runs only while the timer is running;
an event the peripheral listener cannot read has no defined outcome. -/
def sys_step (pwm_led0 : pwm_dt_spec) (pwm_ret : Nat → Int) : sys_event → World → Option World
  | sys_event.central z eh, w => some (ble_event_listener pwm_led0 pwm_ret z eh w).2
  | sys_event.peripheral eh, w =>
    (peripheral_event_listener pwm_led0 pwm_ret eh w).map (fun r => r.2)
  | sys_event.timer_expiry, w =>
    match w.conn_status_timer with
    | none => none
    | some _ => some (conn_status_timer_handler pwm_ret w)

/-- A sequence of steps of the module, first step first; none when a step of the
sequence cannot happen. -/
def sys_run (pwm_led0 : pwm_dt_spec) (pwm_ret : Nat → Int) :
    List sys_event → World → Option World
  | [], w => some w
  | e :: es, w =>
    match sys_step pwm_led0 pwm_ret e w with
    | none => none
    | some w1 => sys_run pwm_led0 pwm_ret es w1

/-- The step index is at a bound in the direction of travel: rising at STEPS, or
falling at 0.  These are the states in which the timer callback takes an else branch. -/
def at_bound (s : pwm_led_state_t) : Bool :=
  (s.increasing && s.steps_taken == STEPS) || (!s.increasing && s.steps_taken == 0)

/-- The invariant of the ramp: the step size is period / STEPS, the step index is at
most STEPS, and the pulse width is the step index times the step size. -/
def ramp_inv (pwm_led0 : pwm_dt_spec) (s : pwm_led_state_t) : Prop :=
  s.pulse_width_delta = pwm_led0.period / STEPS
  ∧ s.steps_taken ≤ STEPS
  ∧ s.pulse_width = s.steps_taken * s.pulse_width_delta

/-- The states of the running ramp: rising with step index 1 .. STEPS, or falling
with step index 0 .. STEPS - 1. -/
def in_cycle (s : pwm_led_state_t) : Prop :=
  (s.increasing = true ∧ 1 ≤ s.steps_taken ∧ s.steps_taken ≤ STEPS)
  ∨ (s.increasing = false ∧ s.steps_taken < STEPS)

/-! ## Concrete inputs -/

/-- A central snapshot: wireless transport, active profile connected, profile index 255. -/
def z_ble_connected_255 : zmk_queries :=
  { zmk_endpoints_selected := { transport := zmk_transport.ZMK_TRANSPORT_BLE }
    zmk_ble_active_profile_is_connected := true
    zmk_ble_active_profile_is_open := false
    zmk_ble_active_profile_index := 255 }

/-- A central snapshot: wireless transport, active profile connected, profile index 1. -/
def z_ble_connected_1 : zmk_queries :=
  { zmk_endpoints_selected := { transport := zmk_transport.ZMK_TRANSPORT_BLE }
    zmk_ble_active_profile_is_connected := true
    zmk_ble_active_profile_is_open := false
    zmk_ble_active_profile_index := 1 }

/-- A central snapshot: wireless transport, active profile not connected. -/
def z_ble_disconnected : zmk_queries :=
  { zmk_endpoints_selected := { transport := zmk_transport.ZMK_TRANSPORT_BLE }
    zmk_ble_active_profile_is_connected := false
    zmk_ble_active_profile_is_open := true
    zmk_ble_active_profile_index := 0 }

/-- A central snapshot: wired transport, with the active profile connected. -/
def z_usb : zmk_queries :=
  { zmk_endpoints_selected := { transport := zmk_transport.ZMK_TRANSPORT_USB }
    zmk_ble_active_profile_is_connected := true
    zmk_ble_active_profile_is_open := false
    zmk_ble_active_profile_index := 2 }

/-- A world in mid-ramp: from boot the central listener handles a not-connected event,
which starts the timer, and the timer fires three times. -/
def w_mid_ramp : World :=
  ticks (fun _ => 0) 3
    (ble_event_listener { period := 1000 } (fun _ => 0) z_ble_disconnected
      (zmk_event_t.ble_active_profile_changed 0) (boot { period := 1000 })).2

/-- A run of the peripheral: the peer is lost, the timer fires twice, the peer
connects. -/
def es_reconnect : List sys_event :=
  [sys_event.peripheral (zmk_event_t.split_peripheral_status_changed { connected := false }),
    sys_event.timer_expiry, sys_event.timer_expiry,
    sys_event.peripheral (zmk_event_t.split_peripheral_status_changed { connected := true })]

/-- The world at the end of that run from boot, period 1000, all writes succeeding. -/
def w_reconnected : World :=
  blink { period := 1000 } (fun _ => 0) 3 125
    (reset_led { period := 1000 } (fun _ => 0)
      (k_timer_stop
        (ticks (fun _ => 0) 2 (k_timer_start SLEEP_DELTA SLEEP_DELTA (boot { period := 1000 })))))

/-! ## Lemmas on traces -/

theorem duty_commands_append (l1 l2 : List Action) :
    duty_commands (l1 ++ l2) = duty_commands l1 ++ duty_commands l2 := by
  induction l1 with
  | nil => rfl
  | cons a t ih => cases a <;> simp [duty_commands, ih]

theorem blocking_time_append (l1 l2 : List Action) :
    blocking_time (l1 ++ l2) = blocking_time l1 + blocking_time l2 := by
  induction l1 with
  | nil => simp [blocking_time]
  | cons a t ih => cases a <;> simp [blocking_time, ih, Nat.add_assoc]

theorem timer_starts_append (l1 l2 : List Action) :
    timer_starts (l1 ++ l2) = timer_starts l1 + timer_starts l2 := by
  induction l1 with
  | nil => simp [timer_starts]
  | cons a t ih => cases a <;> simp [timer_starts, ih, Nat.add_assoc]

theorem duty_commands_map_set (l : List Nat) :
    duty_commands (l.map Action.pwm_set_pulse) = l := by
  induction l with
  | nil => rfl
  | cons a t ih => simp [duty_commands, ih]

/-! ## The ramp from the reset state -/

theorem u32_add_small (a b : Nat) (h : a + b < 2 ^ 32) : u32_add a b = a + b := by
  unfold u32_add
  exact Nat.mod_eq_of_lt h

theorem u32_sub_small (a b : Nat) (hb : b ≤ a) (ha : a < 2 ^ 32) : u32_sub a b = a - b := by
  unfold u32_sub
  have hb2 : b % 2 ^ 32 = b := Nat.mod_eq_of_lt (lt_of_le_of_lt hb ha)
  rw [hb2]
  omega

theorem ticks_succ (pwm_ret : Nat → Int) (n : Nat) (w : World) :
    ticks pwm_ret (n + 1) w = conn_status_timer_handler pwm_ret (ticks pwm_ret n w) := rfl

theorem pred_mul (m d : Nat) : m * d - d = (m - 1) * d := by
  rw [Nat.sub_mul, Nat.one_mul]

/-- The world after k ticks of the rising half, k at most STEPS. -/
theorem ticks_rise (pwm_led0 : pwm_dt_spec) (pwm_ret : Nat → Int) (w : World)
    (hhi : pwm_led0.period < 2 ^ 32)
    (hw : w.pwm_led_state = pwm_led_state_init pwm_led0) (k : Nat) (hk : k ≤ STEPS) :
    ticks pwm_ret k w =
      { pwm_led_state :=
          { increasing := true
            steps_taken := k
            pulse_width := k * (pwm_led0.period / STEPS)
            pulse_width_delta := pwm_led0.period / STEPS }
        conn_status_timer := w.conn_status_timer
        trace := w.trace ++
          ((List.range k).map (fun i => i * (pwm_led0.period / STEPS))).map Action.pwm_set_pulse
        pwm_calls := w.pwm_calls + k } := by
  induction k with
  | zero =>
    cases w
    simp only [pwm_led_state_init] at hw
    simp [ticks, hw]
  | succ k ih =>
    have hk1 : k < STEPS := hk
    have hd : (k + 1) * (pwm_led0.period / STEPS) ≤ pwm_led0.period :=
      le_trans (Nat.mul_le_mul_right _ hk) (Nat.mul_div_le _ _)
    have hsm : k * (pwm_led0.period / STEPS) + pwm_led0.period / STEPS
        = (k + 1) * (pwm_led0.period / STEPS) := (Nat.succ_mul _ _).symm
    have h1 : u32_add k 1 = k + 1 := by
      apply u32_add_small
      unfold STEPS at hk1
      omega
    have h2 : u32_add (k * (pwm_led0.period / STEPS)) (pwm_led0.period / STEPS)
        = (k + 1) * (pwm_led0.period / STEPS) := by
      rw [u32_add_small _ _ (by rw [hsm]; exact lt_of_le_of_lt hd hhi), hsm]
    rw [ticks_succ, ih (Nat.le_of_lt hk1)]
    simp only [conn_status_timer_handler, pwm_set_pulse_dt, if_true, hk1, h1, h2]
    simp [List.range_succ, Nat.add_assoc]

/-- The world after the reflect tick at the top and j further ticks of the falling
half, j below STEPS. -/
theorem ticks_fall (pwm_led0 : pwm_dt_spec) (pwm_ret : Nat → Int) (w : World)
    (hhi : pwm_led0.period < 2 ^ 32)
    (hw : w.pwm_led_state = pwm_led_state_init pwm_led0) (j : Nat) (hj : j < STEPS) :
    ticks pwm_ret (STEPS + 1 + j) w =
      { pwm_led_state :=
          { increasing := false
            steps_taken := STEPS - 1 - j
            pulse_width := (STEPS - 1 - j) * (pwm_led0.period / STEPS)
            pulse_width_delta := pwm_led0.period / STEPS }
        conn_status_timer := w.conn_status_timer
        trace := w.trace ++
          (((List.range STEPS).map (fun i => i * (pwm_led0.period / STEPS))).map
              Action.pwm_set_pulse ++
            ((List.range j).map (fun i => (STEPS - 1 - i) * (pwm_led0.period / STEPS))).map
              Action.pwm_set_pulse)
        pwm_calls := w.pwm_calls + STEPS + j } := by
  have hbound : ∀ m, m ≤ STEPS → m * (pwm_led0.period / STEPS) < 2 ^ 32 := fun m hm =>
    lt_of_le_of_lt (le_trans (Nat.mul_le_mul_right _ hm) (Nat.mul_div_le _ _)) hhi
  induction j with
  | zero =>
    have h1 : u32_sub STEPS 1 = STEPS - 1 := u32_sub_small _ _ (by decide) (by decide)
    have h2 : u32_sub (STEPS * (pwm_led0.period / STEPS)) (pwm_led0.period / STEPS)
        = (STEPS - 1) * (pwm_led0.period / STEPS) := by
      rw [u32_sub_small _ _ (Nat.le_mul_of_pos_left _ (by decide)) (hbound _ le_rfl),
        pred_mul]
    rw [Nat.add_zero, ticks_succ, ticks_rise pwm_led0 pwm_ret w hhi hw STEPS le_rfl]
    simp only [conn_status_timer_handler, if_true, lt_irrefl, if_false, h1, h2]
    simp
  | succ j ih =>
    have hj1 : j < STEPS := Nat.lt_of_succ_lt hj
    have hpos : 0 < STEPS - 1 - j := by
      unfold STEPS at hj ⊢
      omega
    have hidx : STEPS - 1 - j - 1 = STEPS - 1 - (j + 1) := by omega
    have h1 : u32_sub (STEPS - 1 - j) 1 = STEPS - 1 - (j + 1) := by
      rw [u32_sub_small _ _ hpos (by unfold STEPS; omega), hidx]
    have h2 : u32_sub ((STEPS - 1 - j) * (pwm_led0.period / STEPS)) (pwm_led0.period / STEPS)
        = (STEPS - 1 - (j + 1)) * (pwm_led0.period / STEPS) := by
      rw [u32_sub_small _ _ (Nat.le_mul_of_pos_left _ hpos)
        (hbound _ (by unfold STEPS; omega)), ← hidx, pred_mul]
    have hstep : STEPS + 1 + (j + 1) = (STEPS + 1 + j) + 1 := by omega
    rw [hstep, ticks_succ, ih hj1]
    simp only [conn_status_timer_handler, pwm_set_pulse_dt, Bool.false_eq_true, if_false,
      hpos, if_true, h1, h2]
    simp [List.range_succ, Nat.add_assoc]

theorem spec_rise_getElem (d i : Nat) (hi : i < STEPS) : (spec_rise d)[i]? = some (i * d) := by
  simp [spec_rise, List.getElem?_map, List.getElem?_range hi]

theorem spec_fall_getElem (d i : Nat) (hi : i < STEPS - 1) :
    (spec_fall d)[i]? = some ((STEPS - 1 - i) * d) := by
  simp [spec_fall, List.getElem?_map, List.getElem?_range hi]

theorem spec_wave_getElem (d i : Nat) :
    (spec_rise d ++ spec_fall d)[i]? =
      if i < STEPS then some (i * d)
      else if i < 2 * STEPS - 1 then some ((2 * STEPS - 1 - i) * d) else none := by
  have hlen : (spec_rise d).length = STEPS := by simp [spec_rise]
  by_cases h1 : i < STEPS
  · rw [List.getElem?_append_left (by rw [hlen]; exact h1), spec_rise_getElem d i h1, if_pos h1]
  · rw [List.getElem?_append_right (by rw [hlen]; exact Nat.le_of_not_lt h1), hlen, if_neg h1]
    by_cases h2 : i < 2 * STEPS - 1
    · have h3 : i - STEPS < STEPS - 1 := by
        unfold STEPS at h1 h2 ⊢
        omega
      have h4 : STEPS - 1 - (i - STEPS) = 2 * STEPS - 1 - i := by
        unfold STEPS at h1 h2 ⊢
        omega
      rw [spec_fall_getElem d _ h3, if_pos h2, h4]
    · rw [if_neg h2]
      apply List.getElem?_eq_none
      simp only [spec_fall, List.length_map, List.length_range]
      unfold STEPS at h1 h2 ⊢
      omega

theorem spec_rise_increasing (d : Nat) (hd : 0 < d) :
    List.Pairwise (fun a b => a < b) (spec_rise d) := by
  unfold spec_rise
  rw [List.pairwise_map]
  exact (List.pairwise_lt_range STEPS).imp (fun h => Nat.mul_lt_mul_of_pos_right h hd)

theorem spec_fall_decreasing (d : Nat) (hd : 0 < d) :
    List.Pairwise (fun a b => b < a) (spec_fall d) := by
  unfold spec_fall
  rw [List.pairwise_map]
  refine (List.pairwise_lt_range (STEPS - 1)).imp_of_mem ?_
  intro a b ha hb hab
  rw [List.mem_range] at ha hb
  apply Nat.mul_lt_mul_of_pos_right _ hd
  omega

/-! ## The blink sequence -/

/-- The blink loop touches neither the animation state nor the timer, whatever the
outcome of its writes. -/
theorem blink_loop_frame (pwm_led0 : pwm_dt_spec) (pwm_ret : Nat → Int) (d n : Nat)
    (w : World) :
    (blink_loop pwm_led0 pwm_ret d n w).pwm_led_state = w.pwm_led_state
    ∧ (blink_loop pwm_led0 pwm_ret d n w).conn_status_timer = w.conn_status_timer := by
  induction n generalizing w with
  | zero => exact ⟨rfl, rfl⟩
  | succ n ih =>
    simp only [blink_loop]
    split
    · exact ⟨rfl, rfl⟩
    · split
      · exact ⟨rfl, rfl⟩
      · have h := ih (k_msleep d
          (pwm_set_pulse_dt pwm_ret 0 (k_msleep d (pwm_set_pulse_dt pwm_ret pwm_led0.period w).2)).2)
        exact h

/-- The blink loop when its 2*n writes succeed. -/
theorem blink_loop_ok (pwm_led0 : pwm_dt_spec) (pwm_ret : Nat → Int) (d n : Nat) (w : World)
    (hok : ∀ j, j < 2 * n → 0 ≤ pwm_ret (w.pwm_calls + j)) :
    blink_loop pwm_led0 pwm_ret d n w =
      { w with trace := w.trace ++ spec_blink_trace pwm_led0.period d n
               pwm_calls := w.pwm_calls + 2 * n } := by
  induction n generalizing w with
  | zero => simp [blink_loop, spec_blink_trace]
  | succ n ih =>
    have h0 : ¬ pwm_ret w.pwm_calls < 0 := not_lt.mpr (hok 0 (by omega))
    have h1 : ¬ pwm_ret (w.pwm_calls + 1) < 0 := not_lt.mpr (hok 1 (by omega))
    simp only [blink_loop, pwm_set_pulse_dt, k_msleep, h0, h1, if_false]
    rw [ih]
    · simp [spec_blink_trace]
      omega
    · intro j hj
      have h2 := hok (j + 2) (by omega)
      have h4 : w.pwm_calls + 1 + 1 + j = w.pwm_calls + (j + 2) := by omega
      simp only [h4]
      exact h2

/-- The blink loop when the write number k0 + 1 is the first that fails. -/
theorem blink_loop_fail (pwm_led0 : pwm_dt_spec) (pwm_ret : Nat → Int) (d n : Nat) (w : World)
    (k0 : Nat) (hk : k0 < 2 * n)
    (hok : ∀ j, j < k0 → 0 ≤ pwm_ret (w.pwm_calls + j))
    (hfail : pwm_ret (w.pwm_calls + k0) < 0) :
    blink_loop pwm_led0 pwm_ret d n w =
      { w with trace := w.trace ++ ((spec_blink_trace pwm_led0.period d n).take (2 * k0) ++
                  [Action.pwm_set_pulse (spec_blink_duty pwm_led0.period (k0 + 1))])
               pwm_calls := w.pwm_calls + (k0 + 1) } := by
  induction n generalizing w k0 with
  | zero => omega
  | succ n ih =>
    match k0, hk, hok, hfail with
    | 0, _, _, hfail =>
      rw [Nat.add_zero] at hfail
      simp [blink_loop, pwm_set_pulse_dt, hfail, spec_blink_duty]
    | 1, _, hok, hfail =>
      have h0 : ¬ pwm_ret w.pwm_calls < 0 := not_lt.mpr (hok 0 (by omega))
      simp [blink_loop, pwm_set_pulse_dt, k_msleep, h0, hfail, spec_blink_duty,
        spec_blink_trace]
    | m + 2, hk, hok, hfail =>
      have h0 : ¬ pwm_ret w.pwm_calls < 0 := not_lt.mpr (hok 0 (by omega))
      have h1 : ¬ pwm_ret (w.pwm_calls + 1) < 0 := not_lt.mpr (hok 1 (by omega))
      simp only [blink_loop, pwm_set_pulse_dt, k_msleep, h0, h1, if_false]
      rw [ih _ m (by omega)]
      · have hpar : spec_blink_duty pwm_led0.period (m + 2 + 1)
            = spec_blink_duty pwm_led0.period (m + 1) := by
          unfold spec_blink_duty
          have : (m + 2 + 1) % 2 = (m + 1) % 2 := by omega
          rw [this]
        have htake : 2 * (m + 2) = 2 * m + 1 + 1 + 1 + 1 := by omega
        rw [hpar, htake]
        simp [spec_blink_trace]
        omega
      · intro j hj
        have h2 := hok (j + 2) (by omega)
        have h4 : w.pwm_calls + 1 + 1 + j = w.pwm_calls + (j + 2) := by omega
        simp only [h4]
        exact h2
      · have h3 : w.pwm_calls + 1 + 1 + m = w.pwm_calls + (m + 2) := by omega
        simp only [h3]
        exact hfail

theorem spec_blink_duties_succ (period n : Nat) :
    spec_blink_duties period (n + 1) = period :: 0 :: spec_blink_duties period n := by
  simp [spec_blink_duties, List.replicate_succ]

theorem spec_blink_duties_length (period n : Nat) :
    (spec_blink_duties period n).length = 2 * n := by
  induction n with
  | zero => rfl
  | succ n ih =>
    rw [spec_blink_duties_succ, List.length_cons, List.length_cons, ih]
    omega

theorem duty_commands_spec_blink (period d n : Nat) :
    duty_commands (spec_blink_trace period d n) = spec_blink_duties period n := by
  induction n with
  | zero => rfl
  | succ n ih =>
    rw [spec_blink_duties_succ]
    simp [spec_blink_trace, duty_commands, ih]

theorem blocking_time_spec_blink (period d n : Nat) :
    blocking_time (spec_blink_trace period d n) = n * 2 * d := by
  induction n with
  | zero => simp [spec_blink_trace, blocking_time]
  | succ n ih =>
    simp only [spec_blink_trace, blocking_time, ih]
    ring

theorem timer_starts_spec_blink (period d n : Nat) :
    timer_starts (spec_blink_trace period d n) = 0 := by
  induction n with
  | zero => rfl
  | succ n ih => simp [spec_blink_trace, timer_starts, ih]

/-- The trace cut after its write number k0 + 1 is the trace cut before it, followed
by that write. -/
theorem spec_blink_trace_take (period d n k0 : Nat) (hk : k0 < 2 * n) :
    (spec_blink_trace period d n).take (2 * k0 + 1)
      = (spec_blink_trace period d n).take (2 * k0)
          ++ [Action.pwm_set_pulse (spec_blink_duty period (k0 + 1))] := by
  induction n generalizing k0 with
  | zero => omega
  | succ n ih =>
    match k0, hk with
    | 0, _ => simp [spec_blink_trace, spec_blink_duty]
    | 1, _ => simp [spec_blink_trace, spec_blink_duty]
    | m + 2, hk =>
      have hpar : spec_blink_duty period (m + 2 + 1) = spec_blink_duty period (m + 1) := by
        unfold spec_blink_duty
        have : (m + 2 + 1) % 2 = (m + 1) % 2 := by omega
        rw [this]
      have h1 : 2 * (m + 2) + 1 = (2 * m + 1) + 1 + 1 + 1 + 1 := by omega
      have h2 : 2 * (m + 2) = 2 * m + 1 + 1 + 1 + 1 := by omega
      rw [hpar, h1, h2]
      simp only [spec_blink_trace, List.take_succ_cons, List.cons_append]
      rw [ih m (by omega)]

/-- The duty values of the trace cut at its write number k0 + 1 are the first k0 + 1
values of the alternating sequence. -/
theorem duty_commands_spec_blink_take (period d n k0 : Nat) (hk : k0 < 2 * n) :
    duty_commands ((spec_blink_trace period d n).take (2 * k0)
        ++ [Action.pwm_set_pulse (spec_blink_duty period (k0 + 1))])
      = (spec_blink_duties period n).take (k0 + 1) := by
  induction n generalizing k0 with
  | zero => omega
  | succ n ih =>
    match k0, hk with
    | 0, _ => simp [spec_blink_duties_succ, spec_blink_duty, duty_commands]
    | 1, _ => simp [spec_blink_duties_succ, spec_blink_trace, spec_blink_duty, duty_commands]
    | m + 2, hk =>
      have hpar : spec_blink_duty period (m + 2 + 1) = spec_blink_duty period (m + 1) := by
        unfold spec_blink_duty
        have : (m + 2 + 1) % 2 = (m + 1) % 2 := by omega
        rw [this]
      have h2 : 2 * (m + 2) = 2 * m + 1 + 1 + 1 + 1 := by omega
      rw [hpar, h2, spec_blink_duties_succ]
      simp only [spec_blink_trace, List.take_succ_cons, List.cons_append, duty_commands]
      exact congrArg (fun l => period :: 0 :: l) (ih m (by omega))

/-- Whatever its writes answer, the blink loop only appends to the trace. -/
theorem blink_loop_extends (pwm_led0 : pwm_dt_spec) (pwm_ret : Nat → Int) (d n : Nat)
    (w : World) :
    ∃ rest, (blink_loop pwm_led0 pwm_ret d n w).trace = w.trace ++ rest := by
  induction n generalizing w with
  | zero => exact ⟨[], by simp [blink_loop]⟩
  | succ n ih =>
    simp only [blink_loop]
    split
    · exact ⟨_, rfl⟩
    · split
      · exact ⟨[Action.pwm_set_pulse pwm_led0.period, Action.msleep d, Action.pwm_set_pulse 0],
          by simp [pwm_set_pulse_dt, k_msleep]⟩
      · obtain ⟨rest, hrest⟩ := ih (k_msleep d
          (pwm_set_pulse_dt pwm_ret 0 (k_msleep d (pwm_set_pulse_dt pwm_ret pwm_led0.period w).2)).2)
        exact ⟨Action.pwm_set_pulse pwm_led0.period :: Action.msleep d ::
            Action.pwm_set_pulse 0 :: Action.msleep d :: rest,
          by rw [hrest]; simp [pwm_set_pulse_dt, k_msleep]⟩

/-- Stopping the timer and resetting the LED, the common start of every branch that
does not select breathing. -/
theorem reset_led_k_timer_stop (pwm_led0 : pwm_dt_spec) (pwm_ret : Nat → Int) (w : World) :
    reset_led pwm_led0 pwm_ret (k_timer_stop w) =
      { pwm_led_state := pwm_led_state_init pwm_led0
        conn_status_timer := none
        trace := w.trace ++ [Action.timer_stop, Action.pwm_set_pulse 0]
        pwm_calls := w.pwm_calls + 1 } := by
  simp [reset_led, k_timer_stop, pwm_set_pulse_dt, pwm_led_state_init]

/-! ## The listeners, branch by branch -/

theorem ble_event_listener_connected (pwm_led0 : pwm_dt_spec) (pwm_ret : Nat → Int)
    (z : zmk_queries) (eh : zmk_event_t) (w : World)
    (ht : (get_state z).selected_endpoint.transport = zmk_transport.ZMK_TRANSPORT_BLE)
    (hc : (get_state z).active_profile_connected = true)
    (he : as_zmk_endpoint_changed eh = none) :
    ble_event_listener pwm_led0 pwm_ret z eh w =
      (0, blink pwm_led0 pwm_ret (((get_state z).active_profile_index + 1) % 256) 125
            (reset_led pwm_led0 pwm_ret (k_timer_stop w))) := by
  simp only [ble_event_listener, ht, hc, he, if_true]

theorem ble_event_listener_switched (pwm_led0 : pwm_dt_spec) (pwm_ret : Nat → Int)
    (z : zmk_queries) (eh : zmk_event_t) (w : World) (e : zmk_endpoint_instance)
    (ht : (get_state z).selected_endpoint.transport = zmk_transport.ZMK_TRANSPORT_BLE)
    (hc : (get_state z).active_profile_connected = true)
    (he : as_zmk_endpoint_changed eh = some e) :
    ble_event_listener pwm_led0 pwm_ret z eh w =
      (0, reset_led pwm_led0 pwm_ret (k_timer_stop w)) := by
  simp only [ble_event_listener, ht, hc, he, if_true]

theorem ble_event_listener_disconnected (pwm_led0 : pwm_dt_spec) (pwm_ret : Nat → Int)
    (z : zmk_queries) (eh : zmk_event_t) (w : World)
    (ht : (get_state z).selected_endpoint.transport = zmk_transport.ZMK_TRANSPORT_BLE)
    (hc : (get_state z).active_profile_connected = false) :
    ble_event_listener pwm_led0 pwm_ret z eh w =
      (0, k_timer_start SLEEP_DELTA SLEEP_DELTA w) := by
  simp only [ble_event_listener, ht, hc, Bool.false_eq_true, if_false]

theorem ble_event_listener_usb (pwm_led0 : pwm_dt_spec) (pwm_ret : Nat → Int)
    (z : zmk_queries) (eh : zmk_event_t) (w : World)
    (ht : (get_state z).selected_endpoint.transport = zmk_transport.ZMK_TRANSPORT_USB) :
    ble_event_listener pwm_led0 pwm_ret z eh w =
      (0, reset_led pwm_led0 pwm_ret (k_timer_stop w)) := by
  simp only [ble_event_listener, ht]

theorem ble_event_listener_unlisted (pwm_led0 : pwm_dt_spec) (pwm_ret : Nat → Int)
    (z : zmk_queries) (eh : zmk_event_t) (w : World)
    (ht : (get_state z).selected_endpoint.transport = zmk_transport.unlisted) :
    ble_event_listener pwm_led0 pwm_ret z eh w = (0, w) := by
  simp only [ble_event_listener, ht]

theorem ble_event_listener_ret (pwm_led0 : pwm_dt_spec) (pwm_ret : Nat → Int)
    (z : zmk_queries) (eh : zmk_event_t) (w : World) :
    (ble_event_listener pwm_led0 pwm_ret z eh w).1 = 0 := by
  cases ht : (get_state z).selected_endpoint.transport with
  | ZMK_TRANSPORT_USB => rw [ble_event_listener_usb _ _ _ _ _ ht]
  | unlisted => rw [ble_event_listener_unlisted _ _ _ _ _ ht]
  | ZMK_TRANSPORT_BLE =>
    cases hc : (get_state z).active_profile_connected with
    | false => rw [ble_event_listener_disconnected _ _ _ _ _ ht hc]
    | true =>
      cases he : as_zmk_endpoint_changed eh with
      | none => rw [ble_event_listener_connected _ _ _ _ _ ht hc he]
      | some e => rw [ble_event_listener_switched _ _ _ _ _ e ht hc he]

theorem peripheral_event_listener_connected (pwm_led0 : pwm_dt_spec) (pwm_ret : Nat → Int)
    (w : World) :
    peripheral_event_listener pwm_led0 pwm_ret
        (zmk_event_t.split_peripheral_status_changed { connected := true }) w
      = some (0, blink pwm_led0 pwm_ret 3 125 (reset_led pwm_led0 pwm_ret (k_timer_stop w))) := by
  simp only [peripheral_event_listener, as_zmk_split_peripheral_status_changed, if_true]

theorem peripheral_event_listener_disconnected (pwm_led0 : pwm_dt_spec)
    (pwm_ret : Nat → Int) (w : World) :
    peripheral_event_listener pwm_led0 pwm_ret
        (zmk_event_t.split_peripheral_status_changed { connected := false }) w
      = some (0, k_timer_start SLEEP_DELTA SLEEP_DELTA w) := by
  simp only [peripheral_event_listener, as_zmk_split_peripheral_status_changed,
    Bool.false_eq_true, if_false]

theorem peripheral_event_listener_ret (pwm_led0 : pwm_dt_spec) (pwm_ret : Nat → Int)
    (eh : zmk_event_t) (w : World) (r : Int × World)
    (hr : peripheral_event_listener pwm_led0 pwm_ret eh w = some r) : r.1 = 0 := by
  cases eh with
  | ble_active_profile_changed i =>
    simp [peripheral_event_listener, as_zmk_split_peripheral_status_changed] at hr
  | endpoint_changed e =>
    simp [peripheral_event_listener, as_zmk_split_peripheral_status_changed] at hr
  | split_peripheral_status_changed ev =>
    obtain ⟨c⟩ := ev
    cases c with
    | true =>
      rw [peripheral_event_listener_connected] at hr
      rw [← Option.some.inj hr]
    | false =>
      rw [peripheral_event_listener_disconnected] at hr
      rw [← Option.some.inj hr]

/-! ## One tick, branch by branch -/

/-- The rising branch below the top: the pulse width is written, then both counters go up. -/
theorem tick_rising (pwm_ret : Nat → Int) (w : World)
    (hinc : w.pwm_led_state.increasing = true) (hlt : w.pwm_led_state.steps_taken < STEPS)
    (hpw : w.pwm_led_state.pulse_width + w.pwm_led_state.pulse_width_delta < 2 ^ 32) :
    conn_status_timer_handler pwm_ret w =
      { pwm_led_state :=
          { increasing := true
            steps_taken := w.pwm_led_state.steps_taken + 1
            pulse_width := w.pwm_led_state.pulse_width + w.pwm_led_state.pulse_width_delta
            pulse_width_delta := w.pwm_led_state.pulse_width_delta }
        conn_status_timer := w.conn_status_timer
        trace := w.trace ++ [Action.pwm_set_pulse w.pwm_led_state.pulse_width]
        pwm_calls := w.pwm_calls + 1 } := by
  have h1 : u32_add w.pwm_led_state.steps_taken 1 = w.pwm_led_state.steps_taken + 1 :=
    u32_add_small _ _ (by unfold STEPS at hlt; omega)
  simp only [conn_status_timer_handler, pwm_set_pulse_dt, hinc, hlt, if_true, h1,
    u32_add_small _ _ hpw]

/-- The reflect tick at the top: no write, the direction flips, both counters go down. -/
theorem tick_top (pwm_ret : Nat → Int) (w : World)
    (hinc : w.pwm_led_state.increasing = true) (hge : ¬ w.pwm_led_state.steps_taken < STEPS)
    (hst : w.pwm_led_state.steps_taken < 2 ^ 32)
    (hle : w.pwm_led_state.pulse_width_delta ≤ w.pwm_led_state.pulse_width)
    (hpw : w.pwm_led_state.pulse_width < 2 ^ 32) :
    conn_status_timer_handler pwm_ret w =
      { pwm_led_state :=
          { increasing := false
            steps_taken := w.pwm_led_state.steps_taken - 1
            pulse_width := w.pwm_led_state.pulse_width - w.pwm_led_state.pulse_width_delta
            pulse_width_delta := w.pwm_led_state.pulse_width_delta }
        conn_status_timer := w.conn_status_timer
        trace := w.trace
        pwm_calls := w.pwm_calls } := by
  have h1 : u32_sub w.pwm_led_state.steps_taken 1 = w.pwm_led_state.steps_taken - 1 :=
    u32_sub_small _ _ (by unfold STEPS at hge; omega) hst
  simp only [conn_status_timer_handler, hinc, hge, if_true, if_false, h1,
    u32_sub_small _ _ hle hpw]

/-- The falling branch above the floor: the pulse width is written, then both counters
go down. -/
theorem tick_falling (pwm_ret : Nat → Int) (w : World)
    (hinc : w.pwm_led_state.increasing = false) (hpos : 0 < w.pwm_led_state.steps_taken)
    (hst : w.pwm_led_state.steps_taken < 2 ^ 32)
    (hle : w.pwm_led_state.pulse_width_delta ≤ w.pwm_led_state.pulse_width)
    (hpw : w.pwm_led_state.pulse_width < 2 ^ 32) :
    conn_status_timer_handler pwm_ret w =
      { pwm_led_state :=
          { increasing := false
            steps_taken := w.pwm_led_state.steps_taken - 1
            pulse_width := w.pwm_led_state.pulse_width - w.pwm_led_state.pulse_width_delta
            pulse_width_delta := w.pwm_led_state.pulse_width_delta }
        conn_status_timer := w.conn_status_timer
        trace := w.trace ++ [Action.pwm_set_pulse w.pwm_led_state.pulse_width]
        pwm_calls := w.pwm_calls + 1 } := by
  have h1 : u32_sub w.pwm_led_state.steps_taken 1 = w.pwm_led_state.steps_taken - 1 :=
    u32_sub_small _ _ hpos hst
  simp only [conn_status_timer_handler, pwm_set_pulse_dt, hinc, hpos, Bool.false_eq_true,
    if_true, if_false, h1, u32_sub_small _ _ hle hpw]

/-- The reflect tick at the floor: no write, the direction flips, both counters go up. -/
theorem tick_floor (pwm_ret : Nat → Int) (w : World)
    (hinc : w.pwm_led_state.increasing = false) (hzero : ¬ 0 < w.pwm_led_state.steps_taken)
    (hpw : w.pwm_led_state.pulse_width + w.pwm_led_state.pulse_width_delta < 2 ^ 32) :
    conn_status_timer_handler pwm_ret w =
      { pwm_led_state :=
          { increasing := true
            steps_taken := w.pwm_led_state.steps_taken + 1
            pulse_width := w.pwm_led_state.pulse_width + w.pwm_led_state.pulse_width_delta
            pulse_width_delta := w.pwm_led_state.pulse_width_delta }
        conn_status_timer := w.conn_status_timer
        trace := w.trace
        pwm_calls := w.pwm_calls } := by
  have h1 : u32_add w.pwm_led_state.steps_taken 1 = w.pwm_led_state.steps_taken + 1 :=
    u32_add_small _ _ (by omega)
  simp only [conn_status_timer_handler, hinc, hzero, Bool.false_eq_true, if_false, h1,
    u32_add_small _ _ hpw]

/-! ## The invariant of the ramp -/

/-- Under the invariant every product of a step index up to STEPS with the step size
stays within the period. -/
theorem ramp_inv_mul_le (pwm_led0 : pwm_dt_spec) (s : pwm_led_state_t)
    (hinv : ramp_inv pwm_led0 s) (m : Nat) (hm : m ≤ STEPS) :
    m * s.pulse_width_delta ≤ pwm_led0.period := by
  rw [hinv.1]
  exact le_trans (Nat.mul_le_mul_right _ hm) (Nat.mul_div_le _ _)

theorem ramp_inv_init (pwm_led0 : pwm_dt_spec) : ramp_inv pwm_led0 (pwm_led_state_init pwm_led0) := by
  simp [ramp_inv, pwm_led_state_init]

theorem ramp_inv_reset (pwm_led0 : pwm_dt_spec) (pwm_ret : Nat → Int) (w : World) :
    ramp_inv pwm_led0 (reset_led pwm_led0 pwm_ret w).pwm_led_state := by
  simp [ramp_inv, reset_led, pwm_set_pulse_dt]

/-- The four branches of a tick under the invariant, for a uint32_t period: which
branch runs, and the world it yields, without wraparound. -/
theorem tick_under_inv (pwm_led0 : pwm_dt_spec) (pwm_ret : Nat → Int) (w : World)
    (hhi : pwm_led0.period < 2 ^ 32) (hinv : ramp_inv pwm_led0 w.pwm_led_state) :
    (w.pwm_led_state.increasing = true ∧ w.pwm_led_state.steps_taken < STEPS
      ∧ conn_status_timer_handler pwm_ret w =
        { pwm_led_state :=
            { increasing := true
              steps_taken := w.pwm_led_state.steps_taken + 1
              pulse_width := w.pwm_led_state.pulse_width + w.pwm_led_state.pulse_width_delta
              pulse_width_delta := w.pwm_led_state.pulse_width_delta }
          conn_status_timer := w.conn_status_timer
          trace := w.trace ++ [Action.pwm_set_pulse w.pwm_led_state.pulse_width]
          pwm_calls := w.pwm_calls + 1 })
    ∨ (w.pwm_led_state.increasing = true ∧ w.pwm_led_state.steps_taken = STEPS
      ∧ conn_status_timer_handler pwm_ret w =
        { pwm_led_state :=
            { increasing := false
              steps_taken := w.pwm_led_state.steps_taken - 1
              pulse_width := w.pwm_led_state.pulse_width - w.pwm_led_state.pulse_width_delta
              pulse_width_delta := w.pwm_led_state.pulse_width_delta }
          conn_status_timer := w.conn_status_timer
          trace := w.trace
          pwm_calls := w.pwm_calls })
    ∨ (w.pwm_led_state.increasing = false ∧ 0 < w.pwm_led_state.steps_taken
      ∧ conn_status_timer_handler pwm_ret w =
        { pwm_led_state :=
            { increasing := false
              steps_taken := w.pwm_led_state.steps_taken - 1
              pulse_width := w.pwm_led_state.pulse_width - w.pwm_led_state.pulse_width_delta
              pulse_width_delta := w.pwm_led_state.pulse_width_delta }
          conn_status_timer := w.conn_status_timer
          trace := w.trace ++ [Action.pwm_set_pulse w.pwm_led_state.pulse_width]
          pwm_calls := w.pwm_calls + 1 })
    ∨ (w.pwm_led_state.increasing = false ∧ w.pwm_led_state.steps_taken = 0
      ∧ conn_status_timer_handler pwm_ret w =
        { pwm_led_state :=
            { increasing := true
              steps_taken := w.pwm_led_state.steps_taken + 1
              pulse_width := w.pwm_led_state.pulse_width + w.pwm_led_state.pulse_width_delta
              pulse_width_delta := w.pwm_led_state.pulse_width_delta }
          conn_status_timer := w.conn_status_timer
          trace := w.trace
          pwm_calls := w.pwm_calls }) := by
  obtain ⟨hd, hst, hpw⟩ := hinv
  have hinv2 : ramp_inv pwm_led0 w.pwm_led_state := ⟨hd, hst, hpw⟩
  have hpwlt : w.pwm_led_state.pulse_width < 2 ^ 32 := by
    rw [hpw]
    exact lt_of_le_of_lt (ramp_inv_mul_le pwm_led0 _ hinv2 _ hst) hhi
  have hstlt : w.pwm_led_state.steps_taken < 2 ^ 32 := by
    unfold STEPS at hst
    omega
  have hup : w.pwm_led_state.steps_taken < STEPS →
      w.pwm_led_state.pulse_width + w.pwm_led_state.pulse_width_delta < 2 ^ 32 := by
    intro hlt
    have h := ramp_inv_mul_le pwm_led0 _ hinv2 (w.pwm_led_state.steps_taken + 1) hlt
    rw [Nat.succ_mul, ← hpw] at h
    exact lt_of_le_of_lt h hhi
  have hdown : 0 < w.pwm_led_state.steps_taken →
      w.pwm_led_state.pulse_width_delta ≤ w.pwm_led_state.pulse_width := by
    intro hpos
    rw [hpw]
    exact Nat.le_mul_of_pos_left _ hpos
  cases hinc : w.pwm_led_state.increasing with
  | true =>
    by_cases hlt : w.pwm_led_state.steps_taken < STEPS
    · exact Or.inl ⟨rfl, hlt, tick_rising pwm_ret w hinc hlt (hup hlt)⟩
    · have heq : w.pwm_led_state.steps_taken = STEPS := le_antisymm hst (Nat.le_of_not_lt hlt)
      exact Or.inr (Or.inl ⟨rfl, heq,
        tick_top pwm_ret w hinc hlt hstlt (hdown (by rw [heq]; decide)) hpwlt⟩)
  | false =>
    by_cases hpos : 0 < w.pwm_led_state.steps_taken
    · exact Or.inr (Or.inr (Or.inl ⟨rfl, hpos,
        tick_falling pwm_ret w hinc hpos hstlt (hdown hpos) hpwlt⟩))
    · have hz : w.pwm_led_state.steps_taken = 0 := Nat.eq_zero_of_not_pos hpos
      exact Or.inr (Or.inr (Or.inr ⟨rfl, hz,
        tick_floor pwm_ret w hinc hpos (hup (by rw [hz]; decide))⟩))

/-- A tick keeps the invariant. -/
theorem ramp_inv_tick (pwm_led0 : pwm_dt_spec) (pwm_ret : Nat → Int) (w : World)
    (hhi : pwm_led0.period < 2 ^ 32) (hinv : ramp_inv pwm_led0 w.pwm_led_state) :
    ramp_inv pwm_led0 (conn_status_timer_handler pwm_ret w).pwm_led_state := by
  obtain ⟨hd, hst, hpw⟩ := hinv
  rcases tick_under_inv pwm_led0 pwm_ret w hhi ⟨hd, hst, hpw⟩ with
    ⟨_, hlt, h⟩ | ⟨_, heq, h⟩ | ⟨_, hpos, h⟩ | ⟨_, hz, h⟩
  · rw [h]
    exact ⟨hd, hlt, by simp only [hpw, Nat.succ_mul]⟩
  · rw [h]
    refine ⟨hd, le_trans (Nat.sub_le _ _) hst, ?_⟩
    simp only [hpw]
    exact pred_mul _ _
  · rw [h]
    refine ⟨hd, le_trans (Nat.sub_le _ _) hst, ?_⟩
    simp only [hpw]
    exact pred_mul _ _
  · rw [h]
    refine ⟨hd, by simp only [hz]; decide, ?_⟩
    simp only [hpw, Nat.succ_mul]

/-- Every sequence of ticks and resets keeps the invariant. -/
theorem ramp_inv_led_run (pwm_led0 : pwm_dt_spec) (pwm_ret : Nat → Int)
    (hhi : pwm_led0.period < 2 ^ 32) (ops : List led_op) (w : World)
    (hinv : ramp_inv pwm_led0 w.pwm_led_state) :
    ramp_inv pwm_led0 (led_run pwm_led0 pwm_ret ops w).pwm_led_state := by
  induction ops generalizing w with
  | nil => exact hinv
  | cons o ops ih =>
    simp only [led_run]
    apply ih
    cases o with
    | tick => exact ramp_inv_tick pwm_led0 pwm_ret w hhi hinv
    | reset => exact ramp_inv_reset pwm_led0 pwm_ret w

/-- Every run of ticks keeps the invariant. -/
theorem ramp_inv_ticks (pwm_led0 : pwm_dt_spec) (pwm_ret : Nat → Int)
    (hhi : pwm_led0.period < 2 ^ 32) (n : Nat) (w : World)
    (hinv : ramp_inv pwm_led0 w.pwm_led_state) :
    ramp_inv pwm_led0 (ticks pwm_ret n w).pwm_led_state := by
  induction n with
  | zero => exact hinv
  | succ n ih =>
    rw [ticks_succ]
    exact ramp_inv_tick pwm_led0 pwm_ret _ hhi ih

/-- A tick from a state under the invariant lands in the cycle of the running ramp. -/
theorem in_cycle_tick (pwm_led0 : pwm_dt_spec) (pwm_ret : Nat → Int) (w : World)
    (hhi : pwm_led0.period < 2 ^ 32) (hinv : ramp_inv pwm_led0 w.pwm_led_state) :
    in_cycle (conn_status_timer_handler pwm_ret w).pwm_led_state := by
  have hst := hinv.2.1
  rcases tick_under_inv pwm_led0 pwm_ret w hhi hinv with
    ⟨_, hlt, h⟩ | ⟨_, heq, h⟩ | ⟨_, hpos, h⟩ | ⟨_, hz, h⟩
  · rw [h]
    exact Or.inl ⟨rfl, Nat.succ_le_succ (Nat.zero_le _), hlt⟩
  · rw [h]
    refine Or.inr ⟨rfl, ?_⟩
    show w.pwm_led_state.steps_taken - 1 < STEPS
    rw [heq]
    decide
  · rw [h]
    refine Or.inr ⟨rfl, ?_⟩
    show w.pwm_led_state.steps_taken - 1 < STEPS
    omega
  · rw [h]
    refine Or.inl ⟨rfl, Nat.succ_le_succ (Nat.zero_le _), ?_⟩
    show w.pwm_led_state.steps_taken + 1 ≤ STEPS
    rw [hz]
    decide

/-- The timer callback does not touch the status of the timer. -/
theorem tick_timer (pwm_ret : Nat → Int) (w : World) :
    (conn_status_timer_handler pwm_ret w).conn_status_timer = w.conn_status_timer := by
  simp only [conn_status_timer_handler, pwm_set_pulse_dt]
  split_ifs <;> rfl

/-- The animation state after a tick depends on the animation state before it alone. -/
theorem tick_state_congr (r1 r2 : Nat → Int) (w1 w2 : World)
    (h : w1.pwm_led_state = w2.pwm_led_state) :
    (conn_status_timer_handler r1 w1).pwm_led_state
      = (conn_status_timer_handler r2 w2).pwm_led_state := by
  simp only [conn_status_timer_handler, pwm_set_pulse_dt, h]
  split_ifs <;> rfl

/-- From the reset state the animation state after 2*STEPS + 1 ticks is the state after
one tick. -/
theorem ticks_cycle_base (pwm_led0 : pwm_dt_spec) (pwm_ret : Nat → Int) (w : World)
    (hhi : pwm_led0.period < 2 ^ 32)
    (hw : w.pwm_led_state = pwm_led_state_init pwm_led0) :
    (ticks pwm_ret (1 + 2 * STEPS) w).pwm_led_state = (ticks pwm_ret 1 w).pwm_led_state := by
  have h200 : 1 + 2 * STEPS = (STEPS + 1 + (STEPS - 1)) + 1 := by decide
  have hd : pwm_led0.period / STEPS < 2 ^ 32 := lt_of_le_of_lt (Nat.div_le_self _ _) hhi
  rw [h200, ticks_succ, ticks_fall pwm_led0 pwm_ret w hhi hw (STEPS - 1) (by decide),
    ticks_rise pwm_led0 pwm_ret w hhi hw 1 (by decide)]
  rw [tick_floor pwm_ret _ rfl (by
    show ¬ 0 < STEPS - 1 - (STEPS - 1)
    decide) (by
    show (STEPS - 1 - (STEPS - 1)) * (pwm_led0.period / STEPS) + pwm_led0.period / STEPS < 2 ^ 32
    rw [Nat.sub_self, Nat.zero_mul, Nat.zero_add]
    exact hd)]
  simp [STEPS]

/-- From the reset state and from the first tick on, the animation state repeats every
2*STEPS ticks. -/
theorem ticks_cycle (pwm_led0 : pwm_dt_spec) (pwm_ret : Nat → Int) (w : World)
    (hhi : pwm_led0.period < 2 ^ 32)
    (hw : w.pwm_led_state = pwm_led_state_init pwm_led0) (n : Nat) (hn : 1 ≤ n) :
    (ticks pwm_ret (n + 2 * STEPS) w).pwm_led_state = (ticks pwm_ret n w).pwm_led_state := by
  induction n with
  | zero => omega
  | succ n ih =>
    by_cases h0 : n = 0
    · subst h0
      have h := ticks_cycle_base pwm_led0 pwm_ret w hhi hw
      rw [Nat.add_comm 1 (2 * STEPS)] at h
      rw [Nat.zero_add, Nat.add_comm 1 (2 * STEPS)]
      exact h
    · have h1 : n + 1 + 2 * STEPS = (n + 2 * STEPS) + 1 := by omega
      rw [h1, ticks_succ, ticks_succ]
      exact tick_state_congr _ _ _ _ (ih (Nat.pos_of_ne_zero h0))

/-! ## The module as a whole -/

/-- One step of the module keeps: a stopped timer goes with the initial animation
state. -/
theorem sys_step_stopped_init (pwm_led0 : pwm_dt_spec) (pwm_ret : Nat → Int)
    (e : sys_event) (w w1 : World)
    (hinv : w.conn_status_timer = none → w.pwm_led_state = pwm_led_state_init pwm_led0)
    (hstep : sys_step pwm_led0 pwm_ret e w = some w1) :
    w1.conn_status_timer = none → w1.pwm_led_state = pwm_led_state_init pwm_led0 := by
  have hblink : ∀ n,
      (blink pwm_led0 pwm_ret n 125 (reset_led pwm_led0 pwm_ret (k_timer_stop w))).pwm_led_state
        = pwm_led_state_init pwm_led0 := by
    intro n
    unfold blink
    rw [(blink_loop_frame pwm_led0 pwm_ret 125 n _).1, reset_led_k_timer_stop]
  have hreset : (reset_led pwm_led0 pwm_ret (k_timer_stop w)).pwm_led_state
      = pwm_led_state_init pwm_led0 := by
    rw [reset_led_k_timer_stop]
  cases e with
  | central z eh =>
    simp only [sys_step, Option.some.injEq] at hstep
    subst hstep
    cases ht : (get_state z).selected_endpoint.transport with
    | ZMK_TRANSPORT_USB =>
      rw [ble_event_listener_usb _ _ _ _ _ ht]
      exact fun _ => hreset
    | unlisted =>
      rw [ble_event_listener_unlisted _ _ _ _ _ ht]
      exact hinv
    | ZMK_TRANSPORT_BLE =>
      cases hc : (get_state z).active_profile_connected with
      | false =>
        rw [ble_event_listener_disconnected _ _ _ _ _ ht hc]
        intro h
        simp [k_timer_start] at h
      | true =>
        cases he : as_zmk_endpoint_changed eh with
        | none =>
          rw [ble_event_listener_connected _ _ _ _ _ ht hc he]
          exact fun _ => hblink _
        | some e1 =>
          rw [ble_event_listener_switched _ _ _ _ _ e1 ht hc he]
          exact fun _ => hreset
  | peripheral eh =>
    cases eh with
    | ble_active_profile_changed i =>
      simp [sys_step, peripheral_event_listener, as_zmk_split_peripheral_status_changed] at hstep
    | endpoint_changed e1 =>
      simp [sys_step, peripheral_event_listener, as_zmk_split_peripheral_status_changed] at hstep
    | split_peripheral_status_changed ev =>
      obtain ⟨c⟩ := ev
      cases c with
      | true =>
        simp only [sys_step, peripheral_event_listener_connected, Option.map_some',
          Option.some.injEq] at hstep
        subst hstep
        exact fun _ => hblink 3
      | false =>
        simp only [sys_step, peripheral_event_listener_disconnected, Option.map_some',
          Option.some.injEq] at hstep
        subst hstep
        intro h
        simp [k_timer_start] at h
  | timer_expiry =>
    cases htm : w.conn_status_timer with
    | none => simp [sys_step, htm] at hstep
    | some t =>
      simp only [sys_step, htm, Option.some.injEq] at hstep
      subst hstep
      intro h
      rw [tick_timer, htm] at h
      exact absurd h (by simp)

/-- Every run of the module keeps: a stopped timer goes with the initial animation
state. -/
theorem sys_run_stopped_init (pwm_led0 : pwm_dt_spec) (pwm_ret : Nat → Int)
    (es : List sys_event) (w w1 : World)
    (hinv : w.conn_status_timer = none → w.pwm_led_state = pwm_led_state_init pwm_led0)
    (hrun : sys_run pwm_led0 pwm_ret es w = some w1) :
    w1.conn_status_timer = none → w1.pwm_led_state = pwm_led_state_init pwm_led0 := by
  induction es generalizing w with
  | nil =>
    simp only [sys_run, Option.some.injEq] at hrun
    subst hrun
    exact hinv
  | cons e es ih =>
    simp only [sys_run] at hrun
    cases hstep : sys_step pwm_led0 pwm_ret e w with
    | none => simp [hstep] at hrun
    | some w2 =>
      simp only [hstep] at hrun
      exact ih w2 (sys_step_stopped_init pwm_led0 pwm_ret e w w2 hinv hstep) hrun

/-! ## Claims -/

/-- C1: from the reset state and for every PWM period with STEPS ≤ period (a uint32_t
value), the duty values commanded by the first 2*STEPS ticks form a triangle wave.  With
d = period / STEPS: after k ≤ STEPS ticks the commands are 0, d, ..., (k-1)*d; the tick
after that commands nothing and the j ticks that follow command (STEPS-1)*d, ...,
(STEPS-j)*d; the 2*STEPS ticks together command the rising list followed by the
falling list; the rising list is strictly increasing, the falling list strictly
decreasing, and a value that is commanded twice in immediate succession is the
maximum (STEPS-1)*d. -/
theorem C1_triangle_wave (pwm_led0 : pwm_dt_spec) (pwm_ret : Nat → Int) (w : World)
    (hlo : STEPS ≤ pwm_led0.period) (hhi : pwm_led0.period < 2 ^ 32)
    (hw : w.pwm_led_state = pwm_led_state_init pwm_led0) :
    (∀ k, k ≤ STEPS →
        duty_commands (ticks pwm_ret k w).trace
          = duty_commands w.trace ++ (List.range k).map (fun i => i * (pwm_led0.period / STEPS)))
    ∧ (∀ j, j < STEPS →
        duty_commands (ticks pwm_ret (STEPS + 1 + j) w).trace
          = duty_commands w.trace ++ (spec_rise (pwm_led0.period / STEPS) ++
              (List.range j).map (fun i => (STEPS - 1 - i) * (pwm_led0.period / STEPS))))
    ∧ duty_commands (ticks pwm_ret (2 * STEPS) w).trace
        = duty_commands w.trace ++
            (spec_rise (pwm_led0.period / STEPS) ++ spec_fall (pwm_led0.period / STEPS))
    ∧ List.Pairwise (fun a b => a < b) (spec_rise (pwm_led0.period / STEPS))
    ∧ List.Pairwise (fun a b => b < a) (spec_fall (pwm_led0.period / STEPS))
    ∧ (∀ i v,
        (spec_rise (pwm_led0.period / STEPS) ++ spec_fall (pwm_led0.period / STEPS))[i]? = some v →
        (spec_rise (pwm_led0.period / STEPS) ++ spec_fall (pwm_led0.period / STEPS))[i + 1]? = some v →
        v = (STEPS - 1) * (pwm_led0.period / STEPS)) := by
  have hd : 0 < pwm_led0.period / STEPS := Nat.div_pos hlo (by decide)
  have hfall : ∀ j, j < STEPS →
      duty_commands (ticks pwm_ret (STEPS + 1 + j) w).trace
        = duty_commands w.trace ++ (spec_rise (pwm_led0.period / STEPS) ++
            (List.range j).map (fun i => (STEPS - 1 - i) * (pwm_led0.period / STEPS))) := by
    intro j hj
    rw [ticks_fall pwm_led0 pwm_ret w hhi hw j hj]
    simp only [duty_commands_append, duty_commands_map_set, spec_rise]
  refine ⟨?_, hfall, ?_, spec_rise_increasing _ hd, spec_fall_decreasing _ hd, ?_⟩
  · intro k hk
    rw [ticks_rise pwm_led0 pwm_ret w hhi hw k hk]
    simp only [duty_commands_append, duty_commands_map_set]
  · exact hfall (STEPS - 1) (by decide)
  · intro i v h0 h1
    rw [spec_wave_getElem] at h0 h1
    by_cases hi : i + 1 < STEPS
    · rw [if_pos (Nat.lt_of_succ_lt hi)] at h0
      rw [if_pos hi] at h1
      have h2 : i * (pwm_led0.period / STEPS) = (i + 1) * (pwm_led0.period / STEPS) :=
        (Option.some.inj h0).trans (Option.some.inj h1).symm
      rw [Nat.succ_mul] at h2
      omega
    · by_cases hi2 : i < STEPS
      · have hi3 : i = STEPS - 1 := by
          unfold STEPS at hi hi2 ⊢
          omega
        rw [if_pos hi2] at h0
        rw [← Option.some.inj h0, hi3]
      · have hi4 : ¬ i + 1 < STEPS := hi
        rw [if_neg hi2] at h0
        rw [if_neg hi4] at h1
        by_cases hi5 : i + 1 < 2 * STEPS - 1
        · have hi6 : i < 2 * STEPS - 1 := Nat.lt_of_succ_lt hi5
          rw [if_pos hi6] at h0
          rw [if_pos hi5] at h1
          have h2 : (2 * STEPS - 1 - i) * (pwm_led0.period / STEPS)
              = (2 * STEPS - 1 - (i + 1)) * (pwm_led0.period / STEPS) :=
            (Option.some.inj h0).trans (Option.some.inj h1).symm
          have h3 : 2 * STEPS - 1 - i = (2 * STEPS - 1 - (i + 1)) + 1 := by omega
          rw [h3, Nat.succ_mul] at h2
          omega
        · rw [if_neg hi5] at h1
          exact absurd h1 (by simp)

/-- Witness of C1: a board with PWM period 1000, from boot, all writes succeeding. -/
theorem C1_triangle_wave_witness :
    STEPS ≤ 1000 ∧ 1000 < 2 ^ 32
    ∧ (boot { period := 1000 }).pwm_led_state = pwm_led_state_init { period := 1000 }
    ∧ duty_commands (ticks (fun _ => 0) (2 * STEPS) (boot { period := 1000 })).trace
        = duty_commands (boot { period := 1000 }).trace ++
            (spec_rise (1000 / STEPS) ++ spec_fall (1000 / STEPS)) :=
  ⟨by decide, by decide, rfl,
    (C1_triangle_wave { period := 1000 } (fun _ => 0) (boot { period := 1000 })
      (by decide) (by decide) rfl).2.2.1⟩

/-- C2: for every prior world, reset_led sets the animation state to
(increasing, steps_taken = 0, pulse_width = 0, pulse_width_delta = period / STEPS),
leaves the timer as it was and commands exactly one PWM write, of duty 0; the first
tick after reset_led commands duty 0, also when the timer is started in between. -/
theorem C2_reset_then_tick (pwm_led0 : pwm_dt_spec) (pwm_ret : Nat → Int) (w : World) :
    (reset_led pwm_led0 pwm_ret w).pwm_led_state =
        { increasing := true, steps_taken := 0, pulse_width := 0,
          pulse_width_delta := pwm_led0.period / STEPS }
    ∧ (reset_led pwm_led0 pwm_ret w).trace = w.trace ++ [Action.pwm_set_pulse 0]
    ∧ (reset_led pwm_led0 pwm_ret w).conn_status_timer = w.conn_status_timer
    ∧ (conn_status_timer_handler pwm_ret (reset_led pwm_led0 pwm_ret w)).trace
        = (reset_led pwm_led0 pwm_ret w).trace ++ [Action.pwm_set_pulse 0]
    ∧ (conn_status_timer_handler pwm_ret
          (k_timer_start SLEEP_DELTA SLEEP_DELTA (reset_led pwm_led0 pwm_ret w))).trace
        = w.trace ++ [Action.pwm_set_pulse 0, Action.timer_start SLEEP_DELTA SLEEP_DELTA,
            Action.pwm_set_pulse 0] := by
  simp [reset_led, pwm_set_pulse_dt, conn_status_timer_handler, k_timer_start, STEPS]

/-- C3: for every count and pulse duration d, when the 2*count PWM writes of the call
succeed, blink(count, d) appends to the trace exactly the four calls set(period),
sleep(d), set(0), sleep(d) repeated count times: its duty commands are period, 0
repeated count times (2*count commands), it blocks the caller for count*2*d ms, it
starts no timer, and it leaves the timer status and the animation state as they were. -/
theorem C3_blink_trace (pwm_led0 : pwm_dt_spec) (pwm_ret : Nat → Int) (count d : Nat)
    (w : World) (hok : ∀ j, j < 2 * count → 0 ≤ pwm_ret (w.pwm_calls + j)) :
    (blink pwm_led0 pwm_ret count d w).trace
        = w.trace ++ spec_blink_trace pwm_led0.period d count
    ∧ duty_commands (blink pwm_led0 pwm_ret count d w).trace
        = duty_commands w.trace ++ spec_blink_duties pwm_led0.period count
    ∧ (spec_blink_duties pwm_led0.period count).length = 2 * count
    ∧ (blink pwm_led0 pwm_ret count d w).pwm_calls = w.pwm_calls + 2 * count
    ∧ blocking_time (blink pwm_led0 pwm_ret count d w).trace
        = blocking_time w.trace + count * 2 * d
    ∧ timer_starts (blink pwm_led0 pwm_ret count d w).trace = timer_starts w.trace
    ∧ (blink pwm_led0 pwm_ret count d w).conn_status_timer = w.conn_status_timer
    ∧ (blink pwm_led0 pwm_ret count d w).pwm_led_state = w.pwm_led_state := by
  unfold blink
  rw [blink_loop_ok pwm_led0 pwm_ret d count w hok]
  simp only [duty_commands_append, blocking_time_append, timer_starts_append,
    duty_commands_spec_blink, blocking_time_spec_blink, timer_starts_spec_blink,
    spec_blink_duties_length, Nat.add_zero, and_self]

/-- Witness of C3: blink(3, 125) on a board with period 1000, all writes succeeding,
issues the 6 duty commands period, 0, period, 0, period, 0. -/
theorem C3_blink_trace_witness :
    (∀ j, j < 2 * 3 → (0 : Int) ≤ (fun _ => 0) ((boot { period := 1000 }).pwm_calls + j))
    ∧ duty_commands (blink { period := 1000 } (fun _ => 0) 3 125 (boot { period := 1000 })).trace
        = [1000, 0, 1000, 0, 1000, 0]
    ∧ blocking_time (blink { period := 1000 } (fun _ => 0) 3 125 (boot { period := 1000 })).trace
        = 750 :=
  ⟨fun _ _ => le_rfl,
    (C3_blink_trace { period := 1000 } (fun _ => 0) 3 125 (boot { period := 1000 })
      (fun _ _ => le_rfl)).2.1,
    (C3_blink_trace { period := 1000 } (fun _ => 0) 3 125 (boot { period := 1000 })
      (fun _ _ => le_rfl)).2.2.2.2.1⟩

/-- C4: in blink(count, d), when the k-th PWM write of the call (1 ≤ k ≤ 2*count) is the
first that fails, blink returns right after it: the trace it appends is the full
blink trace cut after its k-th write, so the last call is that write and no sleep or
command follows; exactly k duty commands are issued, the first k of the alternating
sequence period, 0; timer and animation state are untouched.  The function is void,
and both listeners return 0 whatever the writes answer. -/
theorem C4_blink_first_failure (pwm_led0 : pwm_dt_spec) (pwm_ret : Nat → Int) (count d : Nat)
    (w : World) (k : Nat) (hk1 : 1 ≤ k) (hk2 : k ≤ 2 * count)
    (hok : ∀ j, j + 1 < k → 0 ≤ pwm_ret (w.pwm_calls + j))
    (hfail : pwm_ret (w.pwm_calls + (k - 1)) < 0) :
    (blink pwm_led0 pwm_ret count d w).trace
        = w.trace ++ (spec_blink_trace pwm_led0.period d count).take (2 * k - 1)
    ∧ (spec_blink_trace pwm_led0.period d count).take (2 * k - 1)
        = (spec_blink_trace pwm_led0.period d count).take (2 * (k - 1))
            ++ [Action.pwm_set_pulse (spec_blink_duty pwm_led0.period k)]
    ∧ duty_commands (blink pwm_led0 pwm_ret count d w).trace
        = duty_commands w.trace ++ (spec_blink_duties pwm_led0.period count).take k
    ∧ ((spec_blink_duties pwm_led0.period count).take k).length = k
    ∧ (blink pwm_led0 pwm_ret count d w).pwm_calls = w.pwm_calls + k
    ∧ (blink pwm_led0 pwm_ret count d w).conn_status_timer = w.conn_status_timer
    ∧ (blink pwm_led0 pwm_ret count d w).pwm_led_state = w.pwm_led_state
    ∧ (∀ z eh w0, (ble_event_listener pwm_led0 pwm_ret z eh w0).1 = 0)
    ∧ (∀ eh w0 r, peripheral_event_listener pwm_led0 pwm_ret eh w0 = some r → r.1 = 0) := by
  obtain ⟨k0, rfl⟩ : ∃ k0, k = k0 + 1 := ⟨k - 1, by omega⟩
  have hk0 : k0 < 2 * count := by omega
  have h21 : 2 * (k0 + 1) - 1 = 2 * k0 + 1 := by omega
  have hfail0 : pwm_ret (w.pwm_calls + k0) < 0 := hfail
  have hok0 : ∀ j, j < k0 → 0 ≤ pwm_ret (w.pwm_calls + j) := fun j hj => hok j (by omega)
  have hframe := blink_loop_frame pwm_led0 pwm_ret d count w
  have hrun := blink_loop_fail pwm_led0 pwm_ret d count w k0 hk0 hok0 hfail0
  have htake := spec_blink_trace_take pwm_led0.period d count k0 hk0
  refine ⟨?_, ?_, ?_, ?_, ?_, hframe.2, hframe.1, ?_, ?_⟩
  · unfold blink
    rw [hrun, h21, htake]
  · rw [h21, htake, Nat.add_sub_cancel]
  · unfold blink
    rw [hrun]
    simp only [duty_commands_append]
    rw [← duty_commands_append, duty_commands_spec_blink_take pwm_led0.period d count k0 hk0]
  · rw [List.length_take, spec_blink_duties_length]
    omega
  · unfold blink
    rw [hrun]
  · intro z eh w0
    exact ble_event_listener_ret pwm_led0 pwm_ret z eh w0
  · intro eh w0 r hr
    exact peripheral_event_listener_ret pwm_led0 pwm_ret eh w0 r hr

/-- Witness of C4: blink(3, 125) on a board with period 1000 when the fourth write of
the call is the first that fails. -/
theorem C4_blink_first_failure_witness :
    duty_commands
        (blink { period := 1000 } (fun n => if n = 3 then -5 else 0) 3 125
          (boot { period := 1000 })).trace
      = duty_commands (boot { period := 1000 }).trace
          ++ (spec_blink_duties 1000 3).take 4 :=
  (C4_blink_first_failure { period := 1000 } (fun n => if n = 3 then -5 else 0) 3 125
    (boot { period := 1000 }) 4 (by decide) (by decide)
    (fun j hj => by
      have h3 : j ≠ 3 := by omega
      simp [boot, h3])
    (by simp [boot])).2.2.1

/-- C5, as stated, fails at profile index 255: the count 256 does not fit the uint8_t
parameter of blink and wraps to 0, so the listener stops the timer, writes duty 0 and
blinks not at all, where the claim asks for 256 blinks. -/
theorem C5_index_255_no_blink :
    (get_state z_ble_connected_255).selected_endpoint.transport
        = zmk_transport.ZMK_TRANSPORT_BLE
    ∧ (get_state z_ble_connected_255).active_profile_connected = true
    ∧ (get_state z_ble_connected_255).active_profile_index = 255
    ∧ as_zmk_endpoint_changed (zmk_event_t.ble_active_profile_changed 255) = none
    ∧ (ble_event_listener { period := 1000 } (fun _ => 0) z_ble_connected_255
          (zmk_event_t.ble_active_profile_changed 255) (boot { period := 1000 })).2.trace
        = [Action.timer_stop, Action.pwm_set_pulse 0]
    ∧ (ble_event_listener { period := 1000 } (fun _ => 0) z_ble_connected_255
          (zmk_event_t.ble_active_profile_changed 255) (boot { period := 1000 })).2.trace
        ≠ [Action.timer_stop, Action.pwm_set_pulse 0] ++ spec_blink_trace 1000 125 (255 + 1) := by
  refine ⟨rfl, rfl, rfl, rfl, rfl, ?_⟩
  intro h
  have hlen := congrArg (fun l => (duty_commands l).length) h
  simp only [duty_commands_append, duty_commands_spec_blink, List.length_append,
    spec_blink_duties_length] at hlen
  revert hlen
  decide

/-- C5, amended: for every active profile index i below 255, when the selected
transport is wireless, the active profile is connected and the event is not an
endpoint-changed event, ble_event_listener stops the breathing timer, resets the LED
and then runs blink(i + 1, 125); when the writes of that blink succeed the trace of the
event is timer stop, duty 0, then i + 1 times set(period), sleep(125), set(0),
sleep(125), and the timer is left stopped. -/
theorem C5_blink_index_plus_one (pwm_led0 : pwm_dt_spec) (pwm_ret : Nat → Int)
    (z : zmk_queries) (eh : zmk_event_t) (w : World)
    (ht : (get_state z).selected_endpoint.transport = zmk_transport.ZMK_TRANSPORT_BLE)
    (hc : (get_state z).active_profile_connected = true)
    (he : as_zmk_endpoint_changed eh = none)
    (hi : (get_state z).active_profile_index < 255)
    (hok : ∀ j, j < 2 * ((get_state z).active_profile_index + 1) →
      0 ≤ pwm_ret (w.pwm_calls + 1 + j)) :
    ble_event_listener pwm_led0 pwm_ret z eh w
        = (0, blink pwm_led0 pwm_ret ((get_state z).active_profile_index + 1) 125
                (reset_led pwm_led0 pwm_ret (k_timer_stop w)))
    ∧ (ble_event_listener pwm_led0 pwm_ret z eh w).2.trace
        = w.trace ++ ([Action.timer_stop, Action.pwm_set_pulse 0] ++
            spec_blink_trace pwm_led0.period 125 ((get_state z).active_profile_index + 1))
    ∧ (ble_event_listener pwm_led0 pwm_ret z eh w).2.conn_status_timer = none := by
  have hmod : ((get_state z).active_profile_index + 1) % 256
      = (get_state z).active_profile_index + 1 := Nat.mod_eq_of_lt (by omega)
  rw [ble_event_listener_connected pwm_led0 pwm_ret z eh w ht hc he, hmod]
  refine ⟨rfl, ?_, ?_⟩
  · unfold blink
    rw [reset_led_k_timer_stop, blink_loop_ok _ _ _ _ _ hok]
    simp
  · unfold blink
    rw [(blink_loop_frame _ _ _ _ _).2, reset_led_k_timer_stop]

/-- Witness of the amended C5: profile index 1 gives two blinks. -/
theorem C5_blink_index_plus_one_witness :
    (ble_event_listener { period := 1000 } (fun _ => 0) z_ble_connected_1
        (zmk_event_t.ble_active_profile_changed 1) (boot { period := 1000 })).2.trace
      = (boot { period := 1000 }).trace ++ ([Action.timer_stop, Action.pwm_set_pulse 0] ++
          spec_blink_trace 1000 125 ((get_state z_ble_connected_1).active_profile_index + 1)) :=
  (C5_blink_index_plus_one { period := 1000 } (fun _ => 0) z_ble_connected_1
    (zmk_event_t.ble_active_profile_changed 1) (boot { period := 1000 })
    rfl rfl rfl (by decide) (fun _ _ => le_rfl)).2.1

/-- C6: central role, wireless transport, active profile connected, and the event is an
endpoint-changed event: for every profile index and every prior world the listener
stops the breathing timer, resets the animation state and commands duty 0 exactly once;
the trace of the event is timer stop, duty 0 and nothing else, so no full-duty command,
no sleep and no timer start is issued. -/
theorem C6_endpoint_changed_no_blink (pwm_led0 : pwm_dt_spec) (pwm_ret : Nat → Int)
    (z : zmk_queries) (e : zmk_endpoint_instance) (w : World)
    (ht : (get_state z).selected_endpoint.transport = zmk_transport.ZMK_TRANSPORT_BLE)
    (hc : (get_state z).active_profile_connected = true) :
    (ble_event_listener pwm_led0 pwm_ret z (zmk_event_t.endpoint_changed e) w).2.trace
        = w.trace ++ [Action.timer_stop, Action.pwm_set_pulse 0]
    ∧ duty_commands
        (ble_event_listener pwm_led0 pwm_ret z (zmk_event_t.endpoint_changed e) w).2.trace
        = duty_commands w.trace ++ [0]
    ∧ blocking_time
        (ble_event_listener pwm_led0 pwm_ret z (zmk_event_t.endpoint_changed e) w).2.trace
        = blocking_time w.trace
    ∧ (ble_event_listener pwm_led0 pwm_ret z (zmk_event_t.endpoint_changed e) w).2.pwm_calls
        = w.pwm_calls + 1
    ∧ (ble_event_listener pwm_led0 pwm_ret z (zmk_event_t.endpoint_changed e) w).2.conn_status_timer
        = none
    ∧ (ble_event_listener pwm_led0 pwm_ret z (zmk_event_t.endpoint_changed e) w).2.pwm_led_state
        = pwm_led_state_init pwm_led0 := by
  rw [ble_event_listener_switched pwm_led0 pwm_ret z (zmk_event_t.endpoint_changed e) w e ht hc rfl,
    reset_led_k_timer_stop]
  simp [duty_commands_append, blocking_time_append, duty_commands, blocking_time]

/-- Witness of C6: profile index 1, connected, the endpoint was just switched. -/
theorem C6_endpoint_changed_no_blink_witness :
    (ble_event_listener { period := 1000 } (fun _ => 0) z_ble_connected_1
        (zmk_event_t.endpoint_changed { transport := zmk_transport.ZMK_TRANSPORT_BLE })
        (boot { period := 1000 })).2.trace
      = (boot { period := 1000 }).trace ++ [Action.timer_stop, Action.pwm_set_pulse 0] :=
  (C6_endpoint_changed_no_blink { period := 1000 } (fun _ => 0) z_ble_connected_1
    { transport := zmk_transport.ZMK_TRANSPORT_BLE } (boot { period := 1000 }) rfl rfl).1

/-- C7: peripheral role, peer-status event with connected = true: the listener stops
the breathing timer, resets the LED and runs blink(3, 125).  When the seven PWM writes
of the event succeed, the trace of the event is timer stop, duty 0, then three times
set(period), sleep(125), set(0), sleep(125); its duty commands are 0, period, 0,
period, 0, period, 0; the timer is left stopped and the animation state is the initial
state. -/
theorem C7_peripheral_connected (pwm_led0 : pwm_dt_spec) (pwm_ret : Nat → Int) (w : World)
    (hok : ∀ j, j < 7 → 0 ≤ pwm_ret (w.pwm_calls + j)) :
    ∃ w1,
      peripheral_event_listener pwm_led0 pwm_ret
          (zmk_event_t.split_peripheral_status_changed { connected := true }) w = some (0, w1)
      ∧ w1 = blink pwm_led0 pwm_ret 3 125 (reset_led pwm_led0 pwm_ret (k_timer_stop w))
      ∧ w1.trace = w.trace ++ ([Action.timer_stop, Action.pwm_set_pulse 0] ++
          spec_blink_trace pwm_led0.period 125 3)
      ∧ duty_commands w1.trace = duty_commands w.trace ++
          [0, pwm_led0.period, 0, pwm_led0.period, 0, pwm_led0.period, 0]
      ∧ w1.conn_status_timer = none
      ∧ w1.pwm_led_state = pwm_led_state_init pwm_led0 := by
  refine ⟨_, peripheral_event_listener_connected pwm_led0 pwm_ret w, rfl, ?_⟩
  have hblink : ∀ j, j < 2 * 3 →
      0 ≤ pwm_ret ((reset_led pwm_led0 pwm_ret (k_timer_stop w)).pwm_calls + j) := by
    intro j hj
    rw [reset_led_k_timer_stop]
    have h := hok (1 + j) (by omega)
    rw [← Nat.add_assoc] at h
    exact h
  unfold blink
  rw [blink_loop_ok _ _ _ _ _ hblink, reset_led_k_timer_stop]
  simp [duty_commands_append, duty_commands, spec_blink_trace]

/-- Witness of C7: a board with period 1000, from boot, all writes succeeding. -/
theorem C7_peripheral_connected_witness :
    ∃ w1,
      peripheral_event_listener { period := 1000 } (fun _ => 0)
          (zmk_event_t.split_peripheral_status_changed { connected := true })
          (boot { period := 1000 }) = some (0, w1)
      ∧ duty_commands w1.trace = [0, 1000, 0, 1000, 0, 1000, 0] :=
  match C7_peripheral_connected { period := 1000 } (fun _ => 0) (boot { period := 1000 })
      (fun _ _ => le_rfl) with
  | ⟨w1, h1, _, _, h4, _, _⟩ => ⟨w1, h1, h4⟩

/-- C8: in both roles an event whose snapshot is not connected (central: wireless
transport and active profile not connected; peripheral: connected = false) starts the
breathing timer with a first delay of SLEEP_DELTA = 20 ms and a repeat interval of
20 ms, and does nothing else: the trace of the event is the single timer start, so no
PWM write and no sleep is issued. -/
theorem C8_not_connected_starts_breathing (pwm_led0 : pwm_dt_spec) (pwm_ret : Nat → Int)
    (z : zmk_queries) (eh : zmk_event_t) (w : World)
    (ht : (get_state z).selected_endpoint.transport = zmk_transport.ZMK_TRANSPORT_BLE)
    (hc : (get_state z).active_profile_connected = false) :
    SLEEP_DELTA = 20
    ∧ (ble_event_listener pwm_led0 pwm_ret z eh w).2.conn_status_timer = some (20, 20)
    ∧ (ble_event_listener pwm_led0 pwm_ret z eh w).2.trace
        = w.trace ++ [Action.timer_start 20 20]
    ∧ (ble_event_listener pwm_led0 pwm_ret z eh w).2.pwm_calls = w.pwm_calls
    ∧ (∃ w1, peripheral_event_listener pwm_led0 pwm_ret
          (zmk_event_t.split_peripheral_status_changed { connected := false }) w = some (0, w1)
        ∧ w1.conn_status_timer = some (20, 20)
        ∧ w1.trace = w.trace ++ [Action.timer_start 20 20]
        ∧ w1.pwm_calls = w.pwm_calls) := by
  rw [ble_event_listener_disconnected pwm_led0 pwm_ret z eh w ht hc]
  refine ⟨rfl, rfl, rfl, rfl, _, peripheral_event_listener_disconnected pwm_led0 pwm_ret w,
    rfl, rfl, rfl⟩

/-- Witness of C8: the central listener from boot with the active profile not connected. -/
theorem C8_not_connected_starts_breathing_witness :
    (ble_event_listener { period := 1000 } (fun _ => 0) z_ble_disconnected
        (zmk_event_t.ble_active_profile_changed 0) (boot { period := 1000 })).2.conn_status_timer
      = some (20, 20) :=
  (C8_not_connected_starts_breathing { period := 1000 } (fun _ => 0) z_ble_disconnected
    (zmk_event_t.ble_active_profile_changed 0) (boot { period := 1000 }) rfl rfl).2.1

/-- C9, as stated, fails: in mid-ramp (three ticks after breathing started) a further
not-connected event, which selects breathing, issues a timer start and nothing else in
either role: no timer stop, no reset, and the animation state stays at
(increasing, steps_taken = 3, pulse_width = 30) instead of the initial values. -/
theorem C9_breathing_event_keeps_ramp :
    w_mid_ramp.pwm_led_state
        = { increasing := true, steps_taken := 3, pulse_width := 30, pulse_width_delta := 10 }
    ∧ (ble_event_listener { period := 1000 } (fun _ => 0) z_ble_disconnected
          (zmk_event_t.ble_active_profile_changed 1) w_mid_ramp).2.pwm_led_state
        = { increasing := true, steps_taken := 3, pulse_width := 30, pulse_width_delta := 10 }
    ∧ (ble_event_listener { period := 1000 } (fun _ => 0) z_ble_disconnected
          (zmk_event_t.ble_active_profile_changed 1) w_mid_ramp).2.pwm_led_state
        ≠ pwm_led_state_init { period := 1000 }
    ∧ (ble_event_listener { period := 1000 } (fun _ => 0) z_ble_disconnected
          (zmk_event_t.ble_active_profile_changed 1) w_mid_ramp).2.trace
        = w_mid_ramp.trace ++ [Action.timer_start 20 20]
    ∧ Action.timer_stop ∉ (ble_event_listener { period := 1000 } (fun _ => 0) z_ble_disconnected
          (zmk_event_t.ble_active_profile_changed 1) w_mid_ramp).2.trace
    ∧ (peripheral_event_listener { period := 1000 } (fun _ => 0)
          (zmk_event_t.split_peripheral_status_changed { connected := false }) w_mid_ramp).map
        (fun r => r.2.pwm_led_state)
        = some { increasing := true, steps_taken := 3, pulse_width := 30,
                 pulse_width_delta := 10 } := by
  refine ⟨by decide, by decide, by decide, by decide, by decide, by decide⟩

/-- C9, amended: for every prior animation state and timer status, an event that
selects blink or idle-off (central: wired transport, or wireless with the active profile
connected; peripheral: connected) first stops the breathing timer and resets the
animation state, before anything else it does, and leaves the timer stopped and the
animation state at its initial values; an event that selects breathing (not connected)
does neither: it issues the timer start alone and leaves the animation state as it was,
so after it the animation state has the initial values exactly when it had them
before. -/
theorem C9_stop_and_reset_unless_breathing (pwm_led0 : pwm_dt_spec) (pwm_ret : Nat → Int)
    (z : zmk_queries) (eh : zmk_event_t) (w : World) :
    (((get_state z).selected_endpoint.transport = zmk_transport.ZMK_TRANSPORT_USB
        ∨ ((get_state z).selected_endpoint.transport = zmk_transport.ZMK_TRANSPORT_BLE
            ∧ (get_state z).active_profile_connected = true)) →
      (∃ rest, (ble_event_listener pwm_led0 pwm_ret z eh w).2.trace
          = w.trace ++ (Action.timer_stop :: Action.pwm_set_pulse 0 :: rest))
      ∧ (ble_event_listener pwm_led0 pwm_ret z eh w).2.pwm_led_state
          = pwm_led_state_init pwm_led0
      ∧ (ble_event_listener pwm_led0 pwm_ret z eh w).2.conn_status_timer = none)
    ∧ (∃ w1, peripheral_event_listener pwm_led0 pwm_ret
          (zmk_event_t.split_peripheral_status_changed { connected := true }) w = some (0, w1)
        ∧ (∃ rest, w1.trace = w.trace ++ (Action.timer_stop :: Action.pwm_set_pulse 0 :: rest))
        ∧ w1.pwm_led_state = pwm_led_state_init pwm_led0
        ∧ w1.conn_status_timer = none)
    ∧ (((get_state z).selected_endpoint.transport = zmk_transport.ZMK_TRANSPORT_BLE
          ∧ (get_state z).active_profile_connected = false) →
      (ble_event_listener pwm_led0 pwm_ret z eh w).2.pwm_led_state = w.pwm_led_state
      ∧ (ble_event_listener pwm_led0 pwm_ret z eh w).2.trace
          = w.trace ++ [Action.timer_start SLEEP_DELTA SLEEP_DELTA])
    ∧ (∃ w1, peripheral_event_listener pwm_led0 pwm_ret
          (zmk_event_t.split_peripheral_status_changed { connected := false }) w = some (0, w1)
        ∧ w1.pwm_led_state = w.pwm_led_state
        ∧ w1.trace = w.trace ++ [Action.timer_start SLEEP_DELTA SLEEP_DELTA]) := by
  have hblink : ∀ n,
      (∃ rest, (blink pwm_led0 pwm_ret n 125 (reset_led pwm_led0 pwm_ret (k_timer_stop w))).trace
          = w.trace ++ (Action.timer_stop :: Action.pwm_set_pulse 0 :: rest))
      ∧ (blink pwm_led0 pwm_ret n 125 (reset_led pwm_led0 pwm_ret (k_timer_stop w))).pwm_led_state
          = pwm_led_state_init pwm_led0
      ∧ (blink pwm_led0 pwm_ret n 125
          (reset_led pwm_led0 pwm_ret (k_timer_stop w))).conn_status_timer = none := by
    intro n
    unfold blink
    obtain ⟨rest, hrest⟩ := blink_loop_extends pwm_led0 pwm_ret 125 n
      (reset_led pwm_led0 pwm_ret (k_timer_stop w))
    have hframe := blink_loop_frame pwm_led0 pwm_ret 125 n
      (reset_led pwm_led0 pwm_ret (k_timer_stop w))
    rw [hframe.1, hframe.2, hrest, reset_led_k_timer_stop]
    exact ⟨⟨rest, by simp⟩, rfl, rfl⟩
  have hreset :
      (∃ rest, (reset_led pwm_led0 pwm_ret (k_timer_stop w)).trace
          = w.trace ++ (Action.timer_stop :: Action.pwm_set_pulse 0 :: rest))
      ∧ (reset_led pwm_led0 pwm_ret (k_timer_stop w)).pwm_led_state
          = pwm_led_state_init pwm_led0
      ∧ (reset_led pwm_led0 pwm_ret (k_timer_stop w)).conn_status_timer = none := by
    rw [reset_led_k_timer_stop]
    exact ⟨⟨[], rfl⟩, rfl, rfl⟩
  refine ⟨?_, ⟨_, peripheral_event_listener_connected pwm_led0 pwm_ret w, hblink 3⟩, ?_,
    ⟨_, peripheral_event_listener_disconnected pwm_led0 pwm_ret w, rfl, rfl⟩⟩
  · intro h
    rcases h with ht | ⟨ht, hc⟩
    · rw [ble_event_listener_usb pwm_led0 pwm_ret z eh w ht]
      exact hreset
    · cases he : as_zmk_endpoint_changed eh with
      | none =>
        rw [ble_event_listener_connected pwm_led0 pwm_ret z eh w ht hc he]
        exact hblink _
      | some e =>
        rw [ble_event_listener_switched pwm_led0 pwm_ret z eh w e ht hc he]
        exact hreset
  · intro h
    rw [ble_event_listener_disconnected pwm_led0 pwm_ret z eh w h.1 h.2]
    exact ⟨rfl, rfl⟩

/-- Witness of the amended C9: in mid-ramp a not-connected event leaves the animation
state as it was, and a wired snapshot resets it. -/
theorem C9_stop_and_reset_unless_breathing_witness :
    (ble_event_listener { period := 1000 } (fun _ => 0) z_ble_disconnected
        (zmk_event_t.ble_active_profile_changed 1) w_mid_ramp).2.pwm_led_state
      = w_mid_ramp.pwm_led_state
    ∧ (ble_event_listener { period := 1000 } (fun _ => 0) z_usb
        (zmk_event_t.ble_active_profile_changed 1) w_mid_ramp).2.pwm_led_state
      = pwm_led_state_init { period := 1000 } :=
  ⟨((C9_stop_and_reset_unless_breathing { period := 1000 } (fun _ => 0) z_ble_disconnected
      (zmk_event_t.ble_active_profile_changed 1) w_mid_ramp).2.2.1 ⟨rfl, rfl⟩).1,
   ((C9_stop_and_reset_unless_breathing { period := 1000 } (fun _ => 0) z_usb
      (zmk_event_t.ble_active_profile_changed 1) w_mid_ramp).1 (Or.inl rfl)).2.1⟩

/-- C10: central role, wired transport: whatever the connected flag, the bonded flag, the
profile index and the kind of event, the listener stops the breathing timer, resets the
animation state and commands duty 0; the trace of the event is timer stop, duty 0 and
nothing else, so it runs no blink and does not start the timer, which is left
stopped. -/
theorem C10_usb_idle_off (pwm_led0 : pwm_dt_spec) (pwm_ret : Nat → Int)
    (z : zmk_queries) (eh : zmk_event_t) (w : World)
    (ht : (get_state z).selected_endpoint.transport = zmk_transport.ZMK_TRANSPORT_USB) :
    (ble_event_listener pwm_led0 pwm_ret z eh w).2.trace
        = w.trace ++ [Action.timer_stop, Action.pwm_set_pulse 0]
    ∧ duty_commands (ble_event_listener pwm_led0 pwm_ret z eh w).2.trace
        = duty_commands w.trace ++ [0]
    ∧ blocking_time (ble_event_listener pwm_led0 pwm_ret z eh w).2.trace = blocking_time w.trace
    ∧ timer_starts (ble_event_listener pwm_led0 pwm_ret z eh w).2.trace = timer_starts w.trace
    ∧ (ble_event_listener pwm_led0 pwm_ret z eh w).2.conn_status_timer = none
    ∧ (ble_event_listener pwm_led0 pwm_ret z eh w).2.pwm_led_state
        = pwm_led_state_init pwm_led0 := by
  rw [ble_event_listener_usb pwm_led0 pwm_ret z eh w ht, reset_led_k_timer_stop]
  simp [duty_commands_append, blocking_time_append, timer_starts_append, duty_commands,
    blocking_time, timer_starts]

/-- Witness of C10: a wired snapshot with a connected profile, handled in mid-ramp. -/
theorem C10_usb_idle_off_witness :
    (ble_event_listener { period := 1000 } (fun _ => 0) z_usb
        (zmk_event_t.ble_active_profile_changed 2) w_mid_ramp).2.trace
      = w_mid_ramp.trace ++ [Action.timer_stop, Action.pwm_set_pulse 0] :=
  (C10_usb_idle_off { period := 1000 } (fun _ => 0) z_usb
    (zmk_event_t.ble_active_profile_changed 2) w_mid_ramp rfl).1

/-- C11: handling the same not-connected event twice in a row, with no tick in between,
leaves the module where handling it once leaves it, for every prior animation state
and timer status and in both roles: the same animation state, the same timer status
(the one timer, running with 20 ms first delay and 20 ms interval) and the same PWM
commands; the second handling issues a further timer start and nothing else. -/
theorem C11_not_connected_idempotent (pwm_led0 : pwm_dt_spec) (pwm_ret : Nat → Int)
    (z : zmk_queries) (eh : zmk_event_t) (w : World)
    (ht : (get_state z).selected_endpoint.transport = zmk_transport.ZMK_TRANSPORT_BLE)
    (hc : (get_state z).active_profile_connected = false) :
    ((ble_event_listener pwm_led0 pwm_ret z eh
          (ble_event_listener pwm_led0 pwm_ret z eh w).2).2.pwm_led_state
        = (ble_event_listener pwm_led0 pwm_ret z eh w).2.pwm_led_state
      ∧ (ble_event_listener pwm_led0 pwm_ret z eh
          (ble_event_listener pwm_led0 pwm_ret z eh w).2).2.conn_status_timer
        = (ble_event_listener pwm_led0 pwm_ret z eh w).2.conn_status_timer
      ∧ (ble_event_listener pwm_led0 pwm_ret z eh w).2.conn_status_timer = some (20, 20)
      ∧ duty_commands (ble_event_listener pwm_led0 pwm_ret z eh
          (ble_event_listener pwm_led0 pwm_ret z eh w).2).2.trace
        = duty_commands (ble_event_listener pwm_led0 pwm_ret z eh w).2.trace
      ∧ (ble_event_listener pwm_led0 pwm_ret z eh
          (ble_event_listener pwm_led0 pwm_ret z eh w).2).2.trace
        = (ble_event_listener pwm_led0 pwm_ret z eh w).2.trace ++ [Action.timer_start 20 20])
    ∧ (∃ w1 w2,
        peripheral_event_listener pwm_led0 pwm_ret
          (zmk_event_t.split_peripheral_status_changed { connected := false }) w = some (0, w1)
        ∧ peripheral_event_listener pwm_led0 pwm_ret
          (zmk_event_t.split_peripheral_status_changed { connected := false }) w1 = some (0, w2)
        ∧ w2.pwm_led_state = w1.pwm_led_state
        ∧ w2.conn_status_timer = w1.conn_status_timer
        ∧ w1.conn_status_timer = some (20, 20)
        ∧ duty_commands w2.trace = duty_commands w1.trace
        ∧ w2.trace = w1.trace ++ [Action.timer_start 20 20]) := by
  have hdc : ∀ l : List Action,
      duty_commands (l ++ [Action.timer_start 20 20]) = duty_commands l := by
    intro l
    simp [duty_commands_append, duty_commands]
  constructor
  · rw [ble_event_listener_disconnected pwm_led0 pwm_ret z eh w ht hc,
      ble_event_listener_disconnected pwm_led0 pwm_ret z eh _ ht hc]
    exact ⟨rfl, rfl, rfl, hdc _, rfl⟩
  · exact ⟨_, _, peripheral_event_listener_disconnected pwm_led0 pwm_ret w,
      peripheral_event_listener_disconnected pwm_led0 pwm_ret _, rfl, rfl, rfl, hdc _, rfl⟩

/-- Witness of C11: the not-connected event of the central role, handled twice in
mid-ramp. -/
theorem C11_not_connected_idempotent_witness :
    (ble_event_listener { period := 1000 } (fun _ => 0) z_ble_disconnected
        (zmk_event_t.ble_active_profile_changed 0)
        (ble_event_listener { period := 1000 } (fun _ => 0) z_ble_disconnected
          (zmk_event_t.ble_active_profile_changed 0) w_mid_ramp).2).2.pwm_led_state
      = (ble_event_listener { period := 1000 } (fun _ => 0) z_ble_disconnected
          (zmk_event_t.ble_active_profile_changed 0) w_mid_ramp).2.pwm_led_state :=
  (C11_not_connected_idempotent { period := 1000 } (fun _ => 0) z_ble_disconnected
    (zmk_event_t.ble_active_profile_changed 0) w_mid_ramp rfl rfl).1.1

/-- C12: for a uint32_t period, in every animation state reached from the initial
state by any sequence of ticks and reset_led calls, pulse_width equals
steps_taken * pulse_width_delta, both as natural numbers and with the product taken
modulo 2^32. -/
theorem C12_pulse_width_is_steps_times_delta (pwm_led0 : pwm_dt_spec) (pwm_ret : Nat → Int)
    (ops : List led_op) (w : World) (hhi : pwm_led0.period < 2 ^ 32)
    (hw : w.pwm_led_state = pwm_led_state_init pwm_led0) :
    (led_run pwm_led0 pwm_ret ops w).pwm_led_state.pulse_width
        = ((led_run pwm_led0 pwm_ret ops w).pwm_led_state.steps_taken
            * (led_run pwm_led0 pwm_ret ops w).pwm_led_state.pulse_width_delta) % 2 ^ 32
    ∧ (led_run pwm_led0 pwm_ret ops w).pwm_led_state.pulse_width
        = (led_run pwm_led0 pwm_ret ops w).pwm_led_state.steps_taken
            * (led_run pwm_led0 pwm_ret ops w).pwm_led_state.pulse_width_delta := by
  have hinv := ramp_inv_led_run pwm_led0 pwm_ret hhi ops w (by rw [hw]; exact ramp_inv_init _)
  have hlt : (led_run pwm_led0 pwm_ret ops w).pwm_led_state.steps_taken
      * (led_run pwm_led0 pwm_ret ops w).pwm_led_state.pulse_width_delta < 2 ^ 32 :=
    lt_of_le_of_lt (ramp_inv_mul_le pwm_led0 _ hinv _ hinv.2.1) hhi
  rw [Nat.mod_eq_of_lt hlt]
  exact ⟨hinv.2.2, hinv.2.2⟩

/-- Witness of C12: period 1000, from boot: three ticks, a reset, two ticks. -/
theorem C12_pulse_width_is_steps_times_delta_witness :
    (1000 : Nat) < 2 ^ 32
    ∧ (led_run { period := 1000 } (fun _ => 0)
        [led_op.tick, led_op.tick, led_op.tick, led_op.reset, led_op.tick, led_op.tick]
        (boot { period := 1000 })).pwm_led_state.pulse_width
      = (led_run { period := 1000 } (fun _ => 0)
          [led_op.tick, led_op.tick, led_op.tick, led_op.reset, led_op.tick, led_op.tick]
          (boot { period := 1000 })).pwm_led_state.steps_taken
        * (led_run { period := 1000 } (fun _ => 0)
          [led_op.tick, led_op.tick, led_op.tick, led_op.reset, led_op.tick, led_op.tick]
          (boot { period := 1000 })).pwm_led_state.pulse_width_delta :=
  ⟨by decide,
    (C12_pulse_width_is_steps_times_delta { period := 1000 } (fun _ => 0)
      [led_op.tick, led_op.tick, led_op.tick, led_op.reset, led_op.tick, led_op.tick]
      (boot { period := 1000 }) (by decide) rfl).2⟩

/-- C13, as stated, fails: led_init answers -ENOTSUP for a device that is not ready
(here ENOTSUP = 134 and every write fails), and still, from boot, a not-connected
event starts the breathing timer in either role, the tick that follows issues a PWM
write, and a connected event issues two PWM writes (the duty 0 of reset_led and the
first write of blink). -/
theorem C13_not_ready_still_active :
    led_init 134 false = -134
    ∧ (sys_run { period := 1000 } (fun _ => -134)
          [sys_event.peripheral (zmk_event_t.split_peripheral_status_changed { connected := false })]
          (boot { period := 1000 })).map (fun w => w.conn_status_timer)
        = some (some (20, 20))
    ∧ (sys_run { period := 1000 } (fun _ => -134)
          [sys_event.central z_ble_disconnected (zmk_event_t.ble_active_profile_changed 0)]
          (boot { period := 1000 })).map (fun w => w.conn_status_timer)
        = some (some (20, 20))
    ∧ (sys_run { period := 1000 } (fun _ => -134)
          [sys_event.peripheral (zmk_event_t.split_peripheral_status_changed { connected := false }),
            sys_event.timer_expiry]
          (boot { period := 1000 })).map (fun w => duty_commands w.trace)
        = some [0]
    ∧ (sys_run { period := 1000 } (fun _ => -134)
          [sys_event.peripheral (zmk_event_t.split_peripheral_status_changed { connected := true })]
          (boot { period := 1000 })).map (fun w => duty_commands w.trace)
        = some [0, 1000]
    ∧ (sys_run { period := 1000 } (fun _ => -134)
          [sys_event.central z_ble_connected_1 (zmk_event_t.ble_active_profile_changed 1)]
          (boot { period := 1000 })).map (fun w => duty_commands w.trace)
        = some [0, 1000] := by
  refine ⟨by decide, by decide, by decide, by decide, by decide, by decide⟩

/-- C13, amended: when the PWM device is not ready, led_init answers the error -ENOTSUP
(and 1 when it is ready), and nothing more: the listeners take no account of that
answer.  Whatever the writes answer, in every world a not-connected event starts the
breathing timer in either role, and a connected or wired event issues the timer stop
and the duty 0 write of reset_led. -/
theorem C13_init_error_not_consulted (ENOTSUP : Int) (pwm_led0 : pwm_dt_spec)
    (pwm_ret : Nat → Int) (z : zmk_queries) (eh : zmk_event_t) (w : World) :
    led_init ENOTSUP false = -ENOTSUP
    ∧ led_init ENOTSUP true = 1
    ∧ (∃ w1, peripheral_event_listener pwm_led0 pwm_ret
          (zmk_event_t.split_peripheral_status_changed { connected := false }) w = some (0, w1)
        ∧ w1.conn_status_timer = some (20, 20))
    ∧ (∃ w1 rest, peripheral_event_listener pwm_led0 pwm_ret
          (zmk_event_t.split_peripheral_status_changed { connected := true }) w = some (0, w1)
        ∧ w1.trace = w.trace ++ (Action.timer_stop :: Action.pwm_set_pulse 0 :: rest))
    ∧ (((get_state z).selected_endpoint.transport = zmk_transport.ZMK_TRANSPORT_BLE
          ∧ (get_state z).active_profile_connected = false) →
        (ble_event_listener pwm_led0 pwm_ret z eh w).2.conn_status_timer = some (20, 20))
    ∧ (((get_state z).selected_endpoint.transport = zmk_transport.ZMK_TRANSPORT_USB
          ∨ ((get_state z).selected_endpoint.transport = zmk_transport.ZMK_TRANSPORT_BLE
              ∧ (get_state z).active_profile_connected = true)) →
        ∃ rest, (ble_event_listener pwm_led0 pwm_ret z eh w).2.trace
          = w.trace ++ (Action.timer_stop :: Action.pwm_set_pulse 0 :: rest)) := by
  have hblink : ∀ n, ∃ rest,
      (blink pwm_led0 pwm_ret n 125 (reset_led pwm_led0 pwm_ret (k_timer_stop w))).trace
        = w.trace ++ (Action.timer_stop :: Action.pwm_set_pulse 0 :: rest) := by
    intro n
    unfold blink
    obtain ⟨rest, hrest⟩ := blink_loop_extends pwm_led0 pwm_ret 125 n
      (reset_led pwm_led0 pwm_ret (k_timer_stop w))
    rw [hrest, reset_led_k_timer_stop]
    exact ⟨rest, by simp⟩
  have hreset : ∃ rest, (reset_led pwm_led0 pwm_ret (k_timer_stop w)).trace
      = w.trace ++ (Action.timer_stop :: Action.pwm_set_pulse 0 :: rest) := by
    rw [reset_led_k_timer_stop]
    exact ⟨[], rfl⟩
  refine ⟨rfl, rfl, ⟨_, peripheral_event_listener_disconnected pwm_led0 pwm_ret w, rfl⟩,
    ?_, ?_, ?_⟩
  · obtain ⟨rest, hrest⟩ := hblink 3
    exact ⟨_, rest, peripheral_event_listener_connected pwm_led0 pwm_ret w, hrest⟩
  · intro h
    rw [ble_event_listener_disconnected pwm_led0 pwm_ret z eh w h.1 h.2]
    rfl
  · intro h
    rcases h with ht | ⟨ht, hc⟩
    · rw [ble_event_listener_usb pwm_led0 pwm_ret z eh w ht]
      exact hreset
    · cases he : as_zmk_endpoint_changed eh with
      | none =>
        rw [ble_event_listener_connected pwm_led0 pwm_ret z eh w ht hc he]
        exact hblink _
      | some e =>
        rw [ble_event_listener_switched pwm_led0 pwm_ret z eh w e ht hc he]
        exact hreset

/-- Witness of the amended C13: with every write failing, a wired snapshot handled from
boot still issues the timer stop and the duty 0 write. -/
theorem C13_init_error_not_consulted_witness :
    ∃ rest, (ble_event_listener { period := 1000 } (fun _ => -134) z_usb
        (zmk_event_t.ble_active_profile_changed 2) (boot { period := 1000 })).2.trace
      = (boot { period := 1000 }).trace ++ (Action.timer_stop :: Action.pwm_set_pulse 0 :: rest) :=
  (C13_init_error_not_consulted 134 { period := 1000 } (fun _ => -134) z_usb
    (zmk_event_t.ble_active_profile_changed 2) (boot { period := 1000 })).2.2.2.2.2 (Or.inl rfl)

/-- C14: the world after one tick does not depend on what the PWM write of that tick
answers: for any two answer functions, so for one that fails and one that succeeds,
the tick yields the same world.  The tick leaves the status of the timer as it was,
moves steps_taken (a uint32_t value) to a different value, and moves pulse_width by
pulse_width_delta up or down in uint32_t arithmetic. -/
theorem C14_tick_ignores_write_result (r_fail r_ok : Nat → Int) (w : World)
    (hst : w.pwm_led_state.steps_taken < 2 ^ 32) :
    conn_status_timer_handler r_fail w = conn_status_timer_handler r_ok w
    ∧ (conn_status_timer_handler r_fail w).conn_status_timer = w.conn_status_timer
    ∧ (conn_status_timer_handler r_fail w).pwm_led_state.steps_taken
        ≠ w.pwm_led_state.steps_taken
    ∧ ((conn_status_timer_handler r_fail w).pwm_led_state.pulse_width
          = u32_add w.pwm_led_state.pulse_width w.pwm_led_state.pulse_width_delta
        ∨ (conn_status_timer_handler r_fail w).pwm_led_state.pulse_width
          = u32_sub w.pwm_led_state.pulse_width w.pwm_led_state.pulse_width_delta) := by
  have hadd : u32_add w.pwm_led_state.steps_taken 1 ≠ w.pwm_led_state.steps_taken := by
    unfold u32_add
    omega
  have hsub : u32_sub w.pwm_led_state.steps_taken 1 ≠ w.pwm_led_state.steps_taken := by
    unfold u32_sub
    omega
  refine ⟨?_, tick_timer r_fail w, ?_, ?_⟩
  · simp only [conn_status_timer_handler, pwm_set_pulse_dt]
  · simp only [conn_status_timer_handler, pwm_set_pulse_dt]
    split_ifs
    · exact hadd
    · exact hsub
    · exact hsub
    · exact hadd
  · simp only [conn_status_timer_handler, pwm_set_pulse_dt]
    split_ifs
    · exact Or.inl rfl
    · exact Or.inr rfl
    · exact Or.inr rfl
    · exact Or.inl rfl

/-- Witness of C14: a tick in mid-ramp with the write failing and with it succeeding. -/
theorem C14_tick_ignores_write_result_witness :
    w_mid_ramp.pwm_led_state.steps_taken < 2 ^ 32
    ∧ conn_status_timer_handler (fun _ => -5) w_mid_ramp
      = conn_status_timer_handler (fun _ => 0) w_mid_ramp :=
  ⟨by decide,
    (C14_tick_ignores_write_result (fun _ => -5) (fun _ => 0) w_mid_ramp (by decide)).1⟩

/-- C15: from the reset state, for a uint32_t period, the animation state after
n + 2*STEPS ticks is the state after n ticks for every n ≥ 1, and no shift m with
0 < m < 2*STEPS has this property; 2*STEPS is 200 ticks, 4000 ms at the tick interval
SLEEP_DELTA of 20 ms. -/
theorem C15_cycle_is_200_ticks (pwm_led0 : pwm_dt_spec) (pwm_ret : Nat → Int) (w : World)
    (hhi : pwm_led0.period < 2 ^ 32)
    (hw : w.pwm_led_state = pwm_led_state_init pwm_led0) :
    (∀ n, 1 ≤ n →
        (ticks pwm_ret (n + 2 * STEPS) w).pwm_led_state = (ticks pwm_ret n w).pwm_led_state)
    ∧ (∀ m, 0 < m → m < 2 * STEPS →
        ¬ ∀ n, 1 ≤ n →
          (ticks pwm_ret (n + m) w).pwm_led_state = (ticks pwm_ret n w).pwm_led_state)
    ∧ 2 * STEPS = 200
    ∧ 2 * STEPS * SLEEP_DELTA = 4000 := by
  refine ⟨ticks_cycle pwm_led0 pwm_ret w hhi hw, ?_, by decide, by decide⟩
  intro m hm0 hm hall
  have h1 := hall 1 le_rfl
  rw [ticks_rise pwm_led0 pwm_ret w hhi hw 1 (by decide)] at h1
  by_cases hle : 1 + m ≤ STEPS
  · rw [ticks_rise pwm_led0 pwm_ret w hhi hw (1 + m) hle] at h1
    have h2 := congrArg pwm_led_state_t.steps_taken h1
    simp only at h2
    omega
  · have hj : 1 + m = STEPS + 1 + (m - STEPS) := by
      unfold STEPS at hle ⊢
      omega
    have hjlt : m - STEPS < STEPS := by
      unfold STEPS at hm ⊢
      omega
    rw [hj, ticks_fall pwm_led0 pwm_ret w hhi hw (m - STEPS) hjlt] at h1
    have h2 := congrArg pwm_led_state_t.increasing h1
    simp at h2

/-- Witness of C15: period 1000, from boot: the state after 207 ticks is the state
after 7 ticks. -/
theorem C15_cycle_is_200_ticks_witness :
    (1000 : Nat) < 2 ^ 32
    ∧ (boot { period := 1000 }).pwm_led_state = pwm_led_state_init { period := 1000 }
    ∧ (ticks (fun _ => 0) (7 + 2 * STEPS) (boot { period := 1000 })).pwm_led_state
      = (ticks (fun _ => 0) 7 (boot { period := 1000 })).pwm_led_state :=
  ⟨by decide, rfl,
    (C15_cycle_is_200_ticks { period := 1000 } (fun _ => 0) (boot { period := 1000 })
      (by decide) rfl).1 7 (by decide)⟩

/-- C16: for every uint32_t period, in every world reached from the initial state by
ticks and reset_led calls, steps_taken is at most STEPS and pulse_width at most
period; the next tick either adds 1 to steps_taken and pulse_width_delta to
pulse_width with the sums below 2^32, or subtracts them with the differences not
below 0, so no increment or decrement wraps; and the tick commands nothing or a duty
value that is at most period. -/
theorem C16_bounds_no_wraparound (pwm_led0 : pwm_dt_spec) (pwm_ret : Nat → Int)
    (ops : List led_op) (w : World) (hhi : pwm_led0.period < 2 ^ 32)
    (hw : w.pwm_led_state = pwm_led_state_init pwm_led0) :
    (led_run pwm_led0 pwm_ret ops w).pwm_led_state.steps_taken ≤ STEPS
    ∧ (led_run pwm_led0 pwm_ret ops w).pwm_led_state.pulse_width ≤ pwm_led0.period
    ∧ (((conn_status_timer_handler pwm_ret
            (led_run pwm_led0 pwm_ret ops w)).pwm_led_state.steps_taken
          = (led_run pwm_led0 pwm_ret ops w).pwm_led_state.steps_taken + 1
        ∧ (conn_status_timer_handler pwm_ret
            (led_run pwm_led0 pwm_ret ops w)).pwm_led_state.pulse_width
          = (led_run pwm_led0 pwm_ret ops w).pwm_led_state.pulse_width
            + (led_run pwm_led0 pwm_ret ops w).pwm_led_state.pulse_width_delta
        ∧ (led_run pwm_led0 pwm_ret ops w).pwm_led_state.steps_taken + 1 < 2 ^ 32
        ∧ (led_run pwm_led0 pwm_ret ops w).pwm_led_state.pulse_width
            + (led_run pwm_led0 pwm_ret ops w).pwm_led_state.pulse_width_delta < 2 ^ 32)
      ∨ ((conn_status_timer_handler pwm_ret
            (led_run pwm_led0 pwm_ret ops w)).pwm_led_state.steps_taken + 1
          = (led_run pwm_led0 pwm_ret ops w).pwm_led_state.steps_taken
        ∧ (conn_status_timer_handler pwm_ret
            (led_run pwm_led0 pwm_ret ops w)).pwm_led_state.pulse_width
            + (led_run pwm_led0 pwm_ret ops w).pwm_led_state.pulse_width_delta
          = (led_run pwm_led0 pwm_ret ops w).pwm_led_state.pulse_width))
    ∧ ((conn_status_timer_handler pwm_ret (led_run pwm_led0 pwm_ret ops w)).trace
          = (led_run pwm_led0 pwm_ret ops w).trace
      ∨ ∃ v, v ≤ pwm_led0.period
          ∧ (conn_status_timer_handler pwm_ret (led_run pwm_led0 pwm_ret ops w)).trace
            = (led_run pwm_led0 pwm_ret ops w).trace ++ [Action.pwm_set_pulse v]) := by
  have hinv := ramp_inv_led_run pwm_led0 pwm_ret hhi ops w (by rw [hw]; exact ramp_inv_init _)
  generalize led_run pwm_led0 pwm_ret ops w = w1 at hinv ⊢
  have hst := hinv.2.1
  have hpw := hinv.2.2
  have hple : w1.pwm_led_state.pulse_width ≤ pwm_led0.period := by
    rw [hpw]
    exact ramp_inv_mul_le pwm_led0 _ hinv _ hst
  have hup : w1.pwm_led_state.steps_taken < STEPS →
      w1.pwm_led_state.pulse_width + w1.pwm_led_state.pulse_width_delta < 2 ^ 32 := by
    intro hlt
    have h := ramp_inv_mul_le pwm_led0 _ hinv (w1.pwm_led_state.steps_taken + 1) hlt
    rw [Nat.succ_mul, ← hpw] at h
    exact lt_of_le_of_lt h hhi
  have hdown : 0 < w1.pwm_led_state.steps_taken →
      w1.pwm_led_state.pulse_width - w1.pwm_led_state.pulse_width_delta
        + w1.pwm_led_state.pulse_width_delta = w1.pwm_led_state.pulse_width := by
    intro hpos
    apply Nat.sub_add_cancel
    rw [hpw]
    exact Nat.le_mul_of_pos_left _ hpos
  have hs32 : STEPS < 2 ^ 32 := by decide
  refine ⟨hst, hple, ?_⟩
  rcases tick_under_inv pwm_led0 pwm_ret w1 hhi hinv with
    ⟨_, hlt, h⟩ | ⟨_, heq, h⟩ | ⟨_, hpos, h⟩ | ⟨_, hz, h⟩
  · rw [h]
    exact ⟨Or.inl ⟨rfl, rfl, by omega, hup hlt⟩, Or.inr ⟨_, hple, rfl⟩⟩
  · rw [h]
    have hpos : 0 < w1.pwm_led_state.steps_taken := by rw [heq]; decide
    exact ⟨Or.inr ⟨Nat.sub_add_cancel hpos, hdown hpos⟩, Or.inl rfl⟩
  · rw [h]
    exact ⟨Or.inr ⟨Nat.sub_add_cancel hpos, hdown hpos⟩, Or.inr ⟨_, hple, rfl⟩⟩
  · rw [h]
    exact ⟨Or.inl ⟨rfl, rfl, by omega, hup (by rw [hz]; decide)⟩, Or.inl rfl⟩

/-- Witness of C16: the largest uint32_t period, from boot, after a tick, a reset and
two ticks. -/
theorem C16_bounds_no_wraparound_witness :
    (4294967295 : Nat) < 2 ^ 32
    ∧ (led_run { period := 4294967295 } (fun _ => 0)
        [led_op.tick, led_op.reset, led_op.tick, led_op.tick]
        (boot { period := 4294967295 })).pwm_led_state.pulse_width ≤ 4294967295 :=
  ⟨by decide,
    (C16_bounds_no_wraparound { period := 4294967295 } (fun _ => 0)
      [led_op.tick, led_op.reset, led_op.tick, led_op.tick]
      (boot { period := 4294967295 }) (by decide) rfl).2.1⟩

/-- C17: for a uint32_t period, in every world reached from the reset state by ticks
and reset_led calls, a tick flips the direction exactly when the step index is at a
bound before the tick (rising with steps_taken = STEPS, or falling with
steps_taken = 0).  Those reflect ticks issue no PWM write and move steps_taken by 1 and
pulse_width by pulse_width_delta back inside the range (down at the top, up at the
floor); every other tick issues exactly one PWM write, of the pulse width before the
update. -/
theorem C17_reflect_ticks (pwm_led0 : pwm_dt_spec) (pwm_ret : Nat → Int)
    (ops : List led_op) (w : World) (hhi : pwm_led0.period < 2 ^ 32)
    (hw : w.pwm_led_state = pwm_led_state_init pwm_led0) :
    ((conn_status_timer_handler pwm_ret (led_run pwm_led0 pwm_ret ops w)).pwm_led_state.increasing
          ≠ (led_run pwm_led0 pwm_ret ops w).pwm_led_state.increasing
        ↔ at_bound (led_run pwm_led0 pwm_ret ops w).pwm_led_state = true)
    ∧ (at_bound (led_run pwm_led0 pwm_ret ops w).pwm_led_state = true →
        (conn_status_timer_handler pwm_ret (led_run pwm_led0 pwm_ret ops w)).trace
            = (led_run pwm_led0 pwm_ret ops w).trace
        ∧ 0 < (conn_status_timer_handler pwm_ret
                (led_run pwm_led0 pwm_ret ops w)).pwm_led_state.steps_taken
        ∧ (conn_status_timer_handler pwm_ret
                (led_run pwm_led0 pwm_ret ops w)).pwm_led_state.steps_taken < STEPS
        ∧ (((led_run pwm_led0 pwm_ret ops w).pwm_led_state.increasing = true
            ∧ (conn_status_timer_handler pwm_ret
                (led_run pwm_led0 pwm_ret ops w)).pwm_led_state.steps_taken + 1
              = (led_run pwm_led0 pwm_ret ops w).pwm_led_state.steps_taken
            ∧ (conn_status_timer_handler pwm_ret
                (led_run pwm_led0 pwm_ret ops w)).pwm_led_state.pulse_width
                + (led_run pwm_led0 pwm_ret ops w).pwm_led_state.pulse_width_delta
              = (led_run pwm_led0 pwm_ret ops w).pwm_led_state.pulse_width)
          ∨ ((led_run pwm_led0 pwm_ret ops w).pwm_led_state.increasing = false
            ∧ (conn_status_timer_handler pwm_ret
                (led_run pwm_led0 pwm_ret ops w)).pwm_led_state.steps_taken
              = (led_run pwm_led0 pwm_ret ops w).pwm_led_state.steps_taken + 1
            ∧ (conn_status_timer_handler pwm_ret
                (led_run pwm_led0 pwm_ret ops w)).pwm_led_state.pulse_width
              = (led_run pwm_led0 pwm_ret ops w).pwm_led_state.pulse_width
                + (led_run pwm_led0 pwm_ret ops w).pwm_led_state.pulse_width_delta)))
    ∧ (at_bound (led_run pwm_led0 pwm_ret ops w).pwm_led_state = false →
        (conn_status_timer_handler pwm_ret (led_run pwm_led0 pwm_ret ops w)).trace
            = (led_run pwm_led0 pwm_ret ops w).trace
              ++ [Action.pwm_set_pulse (led_run pwm_led0 pwm_ret ops w).pwm_led_state.pulse_width]
        ∧ (conn_status_timer_handler pwm_ret (led_run pwm_led0 pwm_ret ops w)).pwm_calls
            = (led_run pwm_led0 pwm_ret ops w).pwm_calls + 1) := by
  have hinv := ramp_inv_led_run pwm_led0 pwm_ret hhi ops w (by rw [hw]; exact ramp_inv_init _)
  generalize led_run pwm_led0 pwm_ret ops w = w1 at hinv ⊢
  have hpw := hinv.2.2
  have hdown : 0 < w1.pwm_led_state.steps_taken →
      w1.pwm_led_state.pulse_width - w1.pwm_led_state.pulse_width_delta
        + w1.pwm_led_state.pulse_width_delta = w1.pwm_led_state.pulse_width := by
    intro hpos
    apply Nat.sub_add_cancel
    rw [hpw]
    exact Nat.le_mul_of_pos_left _ hpos
  rcases tick_under_inv pwm_led0 pwm_ret w1 hhi hinv with
    ⟨hinc, hlt, h⟩ | ⟨hinc, heq, h⟩ | ⟨hinc, hpos, h⟩ | ⟨hinc, hz, h⟩
  · have hb : at_bound w1.pwm_led_state = false := by
      simp [at_bound, hinc, Nat.ne_of_lt hlt]
    rw [h, hb, hinc]
    simp
  · have hb : at_bound w1.pwm_led_state = true := by
      simp [at_bound, hinc, heq]
    have hpos : 0 < w1.pwm_led_state.steps_taken := by rw [heq]; decide
    rw [h, hb, hinc]
    refine ⟨by simp, fun _ => ⟨rfl, ?_, ?_, Or.inl ⟨rfl, Nat.sub_add_cancel hpos, hdown hpos⟩⟩,
      fun hf => absurd hf (by simp)⟩
    · show 0 < w1.pwm_led_state.steps_taken - 1
      rw [heq]
      decide
    · show w1.pwm_led_state.steps_taken - 1 < STEPS
      rw [heq]
      decide
  · have hb : at_bound w1.pwm_led_state = false := by
      simp [at_bound, hinc, Nat.ne_of_gt hpos]
    rw [h, hb, hinc]
    simp
  · have hb : at_bound w1.pwm_led_state = true := by
      simp [at_bound, hinc, hz]
    rw [h, hb, hinc]
    refine ⟨by simp, fun _ => ⟨rfl, Nat.succ_pos _, ?_, Or.inr ⟨rfl, rfl, rfl⟩⟩,
      fun hf => absurd hf (by simp)⟩
    show w1.pwm_led_state.steps_taken + 1 < STEPS
    rw [hz]
    decide

/-- Witness of C17: period 1000, from boot, after two ticks: the ramp is not at a
bound and the next tick writes the pulse width 20. -/
theorem C17_reflect_ticks_witness :
    at_bound (led_run { period := 1000 } (fun _ => 0) [led_op.tick, led_op.tick]
        (boot { period := 1000 })).pwm_led_state = false
    ∧ (conn_status_timer_handler (fun _ => 0)
        (led_run { period := 1000 } (fun _ => 0) [led_op.tick, led_op.tick]
          (boot { period := 1000 }))).trace
      = (led_run { period := 1000 } (fun _ => 0) [led_op.tick, led_op.tick]
          (boot { period := 1000 })).trace
        ++ [Action.pwm_set_pulse (led_run { period := 1000 } (fun _ => 0)
            [led_op.tick, led_op.tick] (boot { period := 1000 })).pwm_led_state.pulse_width] :=
  ⟨by decide,
    ((C17_reflect_ticks { period := 1000 } (fun _ => 0) [led_op.tick, led_op.tick]
      (boot { period := 1000 }) (by decide) rfl).2.2 (by decide)).1⟩

/-- C18: in every world reached from boot (initial animation state, timer stopped) by
any sequence of events of the central listener, events of the peripheral listener and
expiries of the timer, the timer expiring only while it is running: when the timer is
not running, the animation state is the initial state (increasing, steps_taken = 0,
pulse_width = 0).  Hence a not-connected event handled in such a world, which only
starts the timer, is followed by a first tick that commands duty 0. -/
theorem C18_stopped_timer_initial_state (pwm_led0 : pwm_dt_spec) (pwm_ret : Nat → Int)
    (es : List sys_event) (w : World)
    (hrun : sys_run pwm_led0 pwm_ret es (boot pwm_led0) = some w)
    (hstop : w.conn_status_timer = none) :
    w.pwm_led_state = pwm_led_state_init pwm_led0
    ∧ (∃ w1, peripheral_event_listener pwm_led0 pwm_ret
          (zmk_event_t.split_peripheral_status_changed { connected := false }) w = some (0, w1)
        ∧ (conn_status_timer_handler pwm_ret w1).trace
          = w.trace ++ [Action.timer_start 20 20, Action.pwm_set_pulse 0])
    ∧ (∀ z eh,
        (get_state z).selected_endpoint.transport = zmk_transport.ZMK_TRANSPORT_BLE →
        (get_state z).active_profile_connected = false →
        (conn_status_timer_handler pwm_ret (ble_event_listener pwm_led0 pwm_ret z eh w).2).trace
          = w.trace ++ [Action.timer_start 20 20, Action.pwm_set_pulse 0]) := by
  have hst : w.pwm_led_state = pwm_led_state_init pwm_led0 :=
    sys_run_stopped_init pwm_led0 pwm_ret es (boot pwm_led0) w (fun _ => rfl) hrun hstop
  have htick : (conn_status_timer_handler pwm_ret (k_timer_start SLEEP_DELTA SLEEP_DELTA w)).trace
      = w.trace ++ [Action.timer_start 20 20, Action.pwm_set_pulse 0] := by
    simp [conn_status_timer_handler, pwm_set_pulse_dt, k_timer_start, hst, pwm_led_state_init,
      STEPS, SLEEP_DELTA]
  refine ⟨hst, ⟨_, peripheral_event_listener_disconnected pwm_led0 pwm_ret w, htick⟩, ?_⟩
  intro z eh ht hc
  rw [ble_event_listener_disconnected pwm_led0 pwm_ret z eh w ht hc]
  exact htick

/-- Witness of C18: from boot the peripheral loses its peer, the timer fires twice, and
the peer connects: the timer is stopped and the animation state is initial. -/
theorem C18_stopped_timer_initial_state_witness :
    sys_run { period := 1000 } (fun _ => 0) es_reconnect (boot { period := 1000 })
        = some w_reconnected
    ∧ w_reconnected.conn_status_timer = none
    ∧ w_reconnected.pwm_led_state = pwm_led_state_init { period := 1000 } :=
  ⟨by decide, by decide,
    (C18_stopped_timer_initial_state { period := 1000 } (fun _ => 0) es_reconnect
      w_reconnected (by decide) (by decide)).1⟩

/-- C19: from the reset state with STEPS ≤ period (a uint32_t value), for every
n ≥ 2 the n-th tick either commands nothing or commands a value v with
d ≤ v ≤ (STEPS-1)*d, where d = period / STEPS; such a v is above 0 and below period,
so the ramp never commands full brightness and commands duty 0 on the first tick
alone; and after any number n ≥ 1 of ticks the animation state is not
(increasing, steps_taken = 0), so the reset state is not entered again by ticks. -/
theorem C19_ramp_stays_inside (pwm_led0 : pwm_dt_spec) (pwm_ret : Nat → Int) (w : World)
    (hlo : STEPS ≤ pwm_led0.period) (hhi : pwm_led0.period < 2 ^ 32)
    (hw : w.pwm_led_state = pwm_led_state_init pwm_led0) :
    (∀ n, 2 ≤ n →
        (ticks pwm_ret n w).trace = (ticks pwm_ret (n - 1) w).trace
        ∨ ∃ v, (ticks pwm_ret n w).trace
              = (ticks pwm_ret (n - 1) w).trace ++ [Action.pwm_set_pulse v]
            ∧ pwm_led0.period / STEPS ≤ v
            ∧ v ≤ (STEPS - 1) * (pwm_led0.period / STEPS)
            ∧ 0 < v
            ∧ v < pwm_led0.period)
    ∧ (∀ n, 1 ≤ n →
        ¬ ((ticks pwm_ret n w).pwm_led_state.increasing = true
            ∧ (ticks pwm_ret n w).pwm_led_state.steps_taken = 0)
        ∧ (ticks pwm_ret n w).pwm_led_state ≠ pwm_led_state_init pwm_led0) := by
  have hinit : ramp_inv pwm_led0 w.pwm_led_state := by rw [hw]; exact ramp_inv_init _
  have hd : 0 < pwm_led0.period / STEPS := Nat.div_pos hlo (by decide)
  have htop : (STEPS - 1) * (pwm_led0.period / STEPS) < pwm_led0.period := by
    have h1 : STEPS * (pwm_led0.period / STEPS) ≤ pwm_led0.period := Nat.mul_div_le _ _
    have h2 : (STEPS - 1) * (pwm_led0.period / STEPS) + pwm_led0.period / STEPS
        = STEPS * (pwm_led0.period / STEPS) := by
      rw [← Nat.succ_mul]
      rfl
    omega
  have hcyc : ∀ m, in_cycle (ticks pwm_ret (m + 1) w).pwm_led_state := fun m =>
    in_cycle_tick pwm_led0 pwm_ret _ hhi (ramp_inv_ticks pwm_led0 pwm_ret hhi m w hinit)
  have hval : ∀ k, 1 ≤ k → k < STEPS →
      pwm_led0.period / STEPS ≤ k * (pwm_led0.period / STEPS)
      ∧ k * (pwm_led0.period / STEPS) ≤ (STEPS - 1) * (pwm_led0.period / STEPS)
      ∧ 0 < k * (pwm_led0.period / STEPS)
      ∧ k * (pwm_led0.period / STEPS) < pwm_led0.period := by
    intro k hk1 hk2
    have ha : pwm_led0.period / STEPS ≤ k * (pwm_led0.period / STEPS) :=
      Nat.le_mul_of_pos_left _ hk1
    have hb : k * (pwm_led0.period / STEPS) ≤ (STEPS - 1) * (pwm_led0.period / STEPS) :=
      Nat.mul_le_mul_right _ (Nat.le_pred_of_lt hk2)
    exact ⟨ha, hb, lt_of_lt_of_le hd ha, lt_of_le_of_lt hb htop⟩
  constructor
  · intro n hn
    obtain ⟨m, rfl⟩ : ∃ m, n = m + 1 + 1 := ⟨n - 2, by omega⟩
    have hpred : m + 1 + 1 - 1 = m + 1 := by omega
    rw [hpred, ticks_succ pwm_ret (m + 1) w]
    have hinv := ramp_inv_ticks pwm_led0 pwm_ret hhi (m + 1) w hinit
    have hc := hcyc m
    generalize ticks pwm_ret (m + 1) w = w1 at hinv hc ⊢
    have hpw : w1.pwm_led_state.pulse_width
        = w1.pwm_led_state.steps_taken * (pwm_led0.period / STEPS) := by
      rw [hinv.2.2, hinv.1]
    rcases tick_under_inv pwm_led0 pwm_ret w1 hhi hinv with
      ⟨hinc, hlt, h⟩ | ⟨_, _, h⟩ | ⟨hinc, hpos, h⟩ | ⟨_, _, h⟩
    · rw [h]
      rcases hc with ⟨_, h1, _⟩ | ⟨hf, _⟩
      · exact Or.inr ⟨_, rfl, by rw [hpw]; exact hval _ h1 hlt⟩
      · rw [hinc] at hf
        exact absurd hf (by simp)
    · rw [h]
      exact Or.inl rfl
    · rw [h]
      rcases hc with ⟨ht, _, _⟩ | ⟨_, hlt⟩
      · rw [hinc] at ht
        exact absurd ht (by simp)
      · exact Or.inr ⟨_, rfl, by rw [hpw]; exact hval _ hpos hlt⟩
    · rw [h]
      exact Or.inl rfl
  · intro n hn
    obtain ⟨m, rfl⟩ : ∃ m, n = m + 1 := ⟨n - 1, by omega⟩
    have hc := hcyc m
    have hno : ¬ ((ticks pwm_ret (m + 1) w).pwm_led_state.increasing = true
        ∧ (ticks pwm_ret (m + 1) w).pwm_led_state.steps_taken = 0) := by
      intro hx
      rcases hc with ⟨_, h1, _⟩ | ⟨hf, _⟩
      · omega
      · rw [hx.1] at hf
        exact absurd hf (by simp)
    refine ⟨hno, ?_⟩
    intro heq
    apply hno
    rw [heq]
    exact ⟨rfl, rfl⟩

/-- Witness of C19: period 1000, from boot: the third tick commands 20, which lies
between 10 and 990. -/
theorem C19_ramp_stays_inside_witness :
    STEPS ≤ 1000 ∧ (1000 : Nat) < 2 ^ 32
    ∧ ((ticks (fun _ => 0) 3 (boot { period := 1000 })).trace
          = (ticks (fun _ => 0) (3 - 1) (boot { period := 1000 })).trace
        ∨ ∃ v, (ticks (fun _ => 0) 3 (boot { period := 1000 })).trace
              = (ticks (fun _ => 0) (3 - 1) (boot { period := 1000 })).trace
                ++ [Action.pwm_set_pulse v]
            ∧ 1000 / STEPS ≤ v ∧ v ≤ (STEPS - 1) * (1000 / STEPS) ∧ 0 < v ∧ v < 1000) :=
  ⟨by decide, by decide,
    (C19_ramp_stays_inside { period := 1000 } (fun _ => 0) (boot { period := 1000 })
      (by decide) (by decide) rfl).1 3 (by decide)⟩

/-- C20: for every PWM period below STEPS the step size period / STEPS is 0; then in
every world reached from the reset state by ticks and reset_led calls the pulse width
is 0 and a tick commands nothing or duty 0, so the breathing animation keeps the LED
off, while steps_taken still moves with every tick and runs through the cycle
0, 1, ..., STEPS, STEPS-1, ..., 0. -/
theorem C20_small_period_keeps_led_off (pwm_led0 : pwm_dt_spec) (pwm_ret : Nat → Int)
    (ops : List led_op) (w : World) (hlt : pwm_led0.period < STEPS)
    (hw : w.pwm_led_state = pwm_led_state_init pwm_led0) :
    (pwm_led_state_init pwm_led0).pulse_width_delta = 0
    ∧ (led_run pwm_led0 pwm_ret ops w).pwm_led_state.pulse_width_delta = 0
    ∧ (led_run pwm_led0 pwm_ret ops w).pwm_led_state.pulse_width = 0
    ∧ ((conn_status_timer_handler pwm_ret (led_run pwm_led0 pwm_ret ops w)).trace
          = (led_run pwm_led0 pwm_ret ops w).trace
        ∨ (conn_status_timer_handler pwm_ret (led_run pwm_led0 pwm_ret ops w)).trace
          = (led_run pwm_led0 pwm_ret ops w).trace ++ [Action.pwm_set_pulse 0])
    ∧ (conn_status_timer_handler pwm_ret (led_run pwm_led0 pwm_ret ops w)).pwm_led_state.steps_taken
        ≠ (led_run pwm_led0 pwm_ret ops w).pwm_led_state.steps_taken
    ∧ (∀ k, k ≤ STEPS → (ticks pwm_ret k w).pwm_led_state.steps_taken = k)
    ∧ (∀ j, j < STEPS →
        (ticks pwm_ret (STEPS + 1 + j) w).pwm_led_state.steps_taken = STEPS - 1 - j) := by
  have hhi : pwm_led0.period < 2 ^ 32 := lt_trans hlt (by decide)
  have hd0 : pwm_led0.period / STEPS = 0 := Nat.div_eq_of_lt hlt
  have hinv := ramp_inv_led_run pwm_led0 pwm_ret hhi ops w (by rw [hw]; exact ramp_inv_init _)
  refine ⟨hd0, ?_, ?_, ?_, ?_, ?_, ?_⟩
  · rw [hinv.1, hd0]
  · rw [hinv.2.2, hinv.1, hd0, Nat.mul_zero]
  · have hpw0 : (led_run pwm_led0 pwm_ret ops w).pwm_led_state.pulse_width = 0 := by
      rw [hinv.2.2, hinv.1, hd0, Nat.mul_zero]
    rcases tick_under_inv pwm_led0 pwm_ret _ hhi hinv with
      ⟨_, _, h⟩ | ⟨_, _, h⟩ | ⟨_, _, h⟩ | ⟨_, _, h⟩
    · rw [h, hpw0]
      exact Or.inr rfl
    · rw [h]
      exact Or.inl rfl
    · rw [h, hpw0]
      exact Or.inr rfl
    · rw [h]
      exact Or.inl rfl
  · rcases tick_under_inv pwm_led0 pwm_ret _ hhi hinv with
      ⟨_, _, h⟩ | ⟨_, heq, h⟩ | ⟨_, hpos, h⟩ | ⟨_, _, h⟩
    · rw [h]
      exact Nat.succ_ne_self _
    · rw [h]
      show (led_run pwm_led0 pwm_ret ops w).pwm_led_state.steps_taken - 1
        ≠ (led_run pwm_led0 pwm_ret ops w).pwm_led_state.steps_taken
      rw [heq]
      decide
    · rw [h]
      show (led_run pwm_led0 pwm_ret ops w).pwm_led_state.steps_taken - 1
        ≠ (led_run pwm_led0 pwm_ret ops w).pwm_led_state.steps_taken
      omega
    · rw [h]
      exact Nat.succ_ne_self _
  · intro k hk
    rw [ticks_rise pwm_led0 pwm_ret w hhi hw k hk]
  · intro j hj
    rw [ticks_fall pwm_led0 pwm_ret w hhi hw j hj]

/-- Witness of C20: period 99, from boot: the third tick commands duty 0. -/
theorem C20_small_period_keeps_led_off_witness :
    (99 : Nat) < STEPS
    ∧ (led_run { period := 99 } (fun _ => 0) [led_op.tick, led_op.tick]
        (boot { period := 99 })).pwm_led_state.pulse_width = 0
    ∧ ((conn_status_timer_handler (fun _ => 0)
          (led_run { period := 99 } (fun _ => 0) [led_op.tick, led_op.tick]
            (boot { period := 99 }))).trace
          = (led_run { period := 99 } (fun _ => 0) [led_op.tick, led_op.tick]
            (boot { period := 99 })).trace
        ∨ (conn_status_timer_handler (fun _ => 0)
          (led_run { period := 99 } (fun _ => 0) [led_op.tick, led_op.tick]
            (boot { period := 99 }))).trace
          = (led_run { period := 99 } (fun _ => 0) [led_op.tick, led_op.tick]
            (boot { period := 99 })).trace ++ [Action.pwm_set_pulse 0]) :=
  ⟨by decide,
    (C20_small_period_keeps_led_off { period := 99 } (fun _ => 0) [led_op.tick, led_op.tick]
      (boot { period := 99 }) (by decide) rfl).2.2.1,
    (C20_small_period_keeps_led_off { period := 99 } (fun _ => 0) [led_op.tick, led_op.tick]
      (boot { period := 99 }) (by decide) rfl).2.2.2.1⟩

end CarpoStatusLed
